import Mathlib

/-!
Verification of the dartwin DSL pipeline: a shallow embedding of the
parser (parseDarTwin), the graph builder (darTwinToReactFlow), the layout
routine for digital-twin ports (layoutDigitalTwin) and the structural model
validator (isDarTwinModel), with theorems checking the natural-language
specification against the code.

Strings are handled through their underlying character lists; the JavaScript
Map is modelled as an association list in chronological insertion order where
the most recent binding for a key wins, matching Map.set / Map.get semantics.
-/

namespace DW

/-- Whitespace test mirroring the JavaScript regexp class backslash-s for the
character set that can actually occur in DSL documents (ASCII whitespace plus
NBSP); exotic Unicode space code points are not modelled. -/
def isJsWs (c : Char) : Bool :=
  c = ' ' || c = '\t' || c = '\n' || c = '\r' || c = '\x0b' || c = '\x0c' || c = '\xa0'

/-- Character-list version of JavaScript String.prototype.trim. -/
def trimChars (l : List Char) : List Char :=
  ((l.dropWhile isJsWs).reverse.dropWhile isJsWs).reverse

/-- JavaScript value.trim() on strings. -/
def jsTrim (s : String) : String :=
  String.mk (trimChars s.data)

/-- Worker for collapseRuns: the flag records whether the previous character
was whitespace (in which case the current run already emitted its underscore). -/
def collapseRunsAux : Bool → List Char → List Char
  | _, [] => []
  | prevWs, c :: cs =>
    if isJsWs c then
      if prevWs then collapseRunsAux true cs
      else '_' :: collapseRunsAux true cs
    else c :: collapseRunsAux false cs

/-- Replace every maximal run of whitespace by a single underscore,
mirroring value.replace(/\s+/g, "_"). -/
def collapseRuns (l : List Char) : List Char :=
  collapseRunsAux false l

/-- toSegment from darTwinToReactFlow.ts: value.trim().replace(/\s+/g, "_"). -/
def toSegment (s : String) : String :=
  String.mk (collapseRuns (trimChars s.data))

/-! ## The Model produced by the parser (types/dartwin.ts)

The TypeScript interfaces carry a constant discriminant field
type : "DarTwin" on the model; being constant it is omitted from the
Lean structure (the JSON-level validator models it explicitly). -/

structure DigitalTwin where
  name : String
  ports : List String
  deriving DecidableEq

structure OriginalTwin where
  name : String
  ports : List String
  deriving DecidableEq

structure Connection where
  from_ : String
  to_ : String
  name : Option String
  deriving DecidableEq

structure TwinSystem where
  name : String
  digital_twins : List DigitalTwin
  original_twins : List OriginalTwin
  connections : List Connection
  deriving DecidableEq

structure Goal where
  name : String
  doc : Option String
  deriving DecidableEq

structure Allocation where
  goal : String
  target : String
  deriving DecidableEq

structure PartialDarTwinSlice where
  systems : Option (List TwinSystem)
  goals : Option (List Goal)
  allocations : Option (List Allocation)
  deriving DecidableEq

structure DarTrans where
  core : Option PartialDarTwinSlice
  before : Option PartialDarTwinSlice
  after : Option PartialDarTwinSlice
  deriving DecidableEq

structure DarTwinModel where
  name : String
  systems : List TwinSystem
  goals : List Goal
  allocations : List Allocation
  dartrans : Option DarTrans
  deriving DecidableEq

/-! ## Graph types (types/reactflow.ts) -/

inductive NodeType where
  | dartwin | twinsystem | dt | at | port | goal
  deriving DecidableEq

structure DarTwinNode where
  id : String
  type : NodeType
  label : String
  parentId : Option String
  doc : Option String
  deriving DecidableEq

structure DarTwinEdge where
  id : String
  source : String
  target : String
  label : Option String
  deriving DecidableEq

structure DarTwinGraph where
  nodes : List DarTwinNode
  edges : List DarTwinEdge
  deriving DecidableEq

/-! ## JavaScript Map model

Entries are kept in chronological insertion order; lookup returns the most
recent binding, so a later set to the same key overrides an earlier one. -/

def alistGet {α : Type} : List (String × α) → String → Option α
  | [], _ => none
  | (k2, v) :: rest, k =>
    match alistGet rest k with
    | some r => some r
    | none => if k2 = k then some v else none

/-! ## Graph builder (darTwinToReactFlow.ts) -/

def dartwinSegmentOf (m : DarTwinModel) : String :=
  toSegment (if m.name = "" then "dartwin" else m.name)

def dartwinIdOf (dseg : String) : String := "dw::" ++ dseg

def systemId (dseg s : String) : String := "ts::" ++ dseg ++ "::" ++ toSegment s

def digitalId (dseg s t : String) : String :=
  "dt::" ++ dseg ++ "::" ++ toSegment s ++ "::" ++ toSegment t

def originalId (dseg s t : String) : String :=
  "at::" ++ dseg ++ "::" ++ toSegment s ++ "::" ++ toSegment t

def portId (dseg s t p : String) : String :=
  "port::" ++ dseg ++ "::" ++ toSegment s ++ "::" ++ toSegment t ++ "::" ++ toSegment p

def goalId (dseg g : String) : String := "goal::" ++ dseg ++ "::" ++ toSegment g

/-- resolvePortId from darTwinToReactFlow.ts: exact lookup first, then the
reference prefixed with the current system name, then the reference with a
leading system-name prefix stripped. -/
def resolvePortId (map : List (String × String)) (system reference : String) :
    Option String :=
  let trimmed := jsTrim reference
  match alistGet map trimmed with
  | some v => some v
  | none =>
    match alistGet map (system ++ "." ++ trimmed) with
    | some v => some v
    | none =>
      let sysDot := system ++ "."
      if sysDot.isPrefixOf trimmed then
        alistGet map (trimmed.drop sysDot.length)
      else none

/-- resolveDigitalTwinId from darTwinToReactFlow.ts. -/
def resolveDigitalTwinId (map : List (String × String)) (system target : String) :
    Option String :=
  let trimmed := jsTrim target
  match alistGet map trimmed with
  | some v => some v
  | none =>
    let sysDot := system ++ "."
    if sysDot.isPrefixOf trimmed then
      alistGet map (trimmed.drop sysDot.length)
    else none

/-- Port-lookup entries registered by setPortAliases for one twin: for each
port, the primary key owner.port followed by the alias system.owner.port,
both mapping to the port node id. -/
def portEntriesOfTwin (dseg sysName twinName : String) (ports : List String) :
    List (String × String) :=
  ports.flatMap fun p =>
    [(twinName ++ "." ++ p, portId dseg sysName twinName p),
     (sysName ++ "." ++ twinName ++ "." ++ p, portId dseg sysName twinName p)]

def systemPortEntries (dseg : String) (s : TwinSystem) : List (String × String) :=
  (s.digital_twins.flatMap fun dt => portEntriesOfTwin dseg s.name dt.name dt.ports) ++
  (s.original_twins.flatMap fun ot => portEntriesOfTwin dseg s.name ot.name ot.ports)

def dtEntriesOfSystem (dseg : String) (s : TwinSystem) : List (String × String) :=
  s.digital_twins.flatMap fun dt =>
    [(dt.name, digitalId dseg s.name dt.name),
     (s.name ++ "." ++ dt.name, digitalId dseg s.name dt.name)]

def portNodesOfTwin (dseg sysName twinName parentNodeId : String)
    (ports : List String) : List DarTwinNode :=
  ports.map fun p =>
    { id := portId dseg sysName twinName p, type := .port, label := p,
      parentId := some parentNodeId, doc := none }

def systemNodes (dseg dwId : String) (s : TwinSystem) : List DarTwinNode :=
  { id := systemId dseg s.name, type := .twinsystem, label := s.name,
    parentId := some dwId, doc := none } ::
  ((s.digital_twins.flatMap fun dt =>
      { id := digitalId dseg s.name dt.name, type := .dt, label := dt.name,
        parentId := some (systemId dseg s.name), doc := none } ::
      portNodesOfTwin dseg s.name dt.name (digitalId dseg s.name dt.name) dt.ports) ++
   (s.original_twins.flatMap fun ot =>
      { id := originalId dseg s.name ot.name, type := .at, label := ot.name,
        parentId := some (systemId dseg s.name), doc := none } ::
      portNodesOfTwin dseg s.name ot.name (originalId dseg s.name ot.name) ot.ports))

def connectionEdgesOf (pm : List (String × String)) (s : TwinSystem) :
    List DarTwinEdge :=
  s.connections.enum.filterMap fun ic =>
    match resolvePortId pm s.name ic.2.from_, resolvePortId pm s.name ic.2.to_ with
    | some a, some b =>
      some { id := "connect::" ++ toSegment s.name ++ "::" ++ toString ic.1,
             source := a, target := b, label := ic.2.name }
    | _, _ => none

structure BuildAcc where
  nodes : List DarTwinNode
  edges : List DarTwinEdge
  portMap : List (String × String)
  dtMap : List (String × String)

/-- One iteration of the model.systems.forEach loop: push the system node,
the digital/original twin nodes with their port nodes (registering port and
twin lookups), then resolve this system's connections against the lookup as
populated so far. -/
def stepSystem (dseg dwId : String) (acc : BuildAcc) (s : TwinSystem) : BuildAcc :=
  let pm := acc.portMap ++ systemPortEntries dseg s
  { nodes := acc.nodes ++ systemNodes dseg dwId s
    edges := acc.edges ++ connectionEdgesOf pm s
    portMap := pm
    dtMap := acc.dtMap ++ dtEntriesOfSystem dseg s }

def initAcc (m : DarTwinModel) : BuildAcc :=
  { nodes := [{ id := dartwinIdOf (dartwinSegmentOf m), type := .dartwin,
                label := m.name, parentId := none, doc := none }]
    edges := [], portMap := [], dtMap := [] }

def sysAccOf (m : DarTwinModel) : BuildAcc :=
  m.systems.foldl
    (stepSystem (dartwinSegmentOf m) (dartwinIdOf (dartwinSegmentOf m)))
    (initAcc m)

def goalNodeOf (dseg : String) (g : Goal) : DarTwinNode :=
  { id := goalId dseg g.name, type := .goal, label := g.name,
    parentId := some (dartwinIdOf dseg), doc := g.doc }

def goalEntriesOf (dseg : String) (goals : List Goal) : List (String × String) :=
  goals.map fun g => (g.name, goalId dseg g.name)

def allocationEdgesOf (dtMap goalMap : List (String × String))
    (allocs : List Allocation) : List DarTwinEdge :=
  allocs.filterMap fun a =>
    match alistGet goalMap a.goal,
          resolveDigitalTwinId dtMap ((a.target.splitOn ".").headD "") a.target with
    | some g, some t =>
      some { id := "allocation::" ++ toSegment a.target ++ "::" ++ toSegment a.goal,
             source := t, target := g, label := some "allocate" }
    | _, _ => none

/-- Allocation edges as emitted by darTwinToReactFlow against the twin and
goal lookups it has built. -/
def modelAllocationEdges (m : DarTwinModel) : List DarTwinEdge :=
  allocationEdgesOf (sysAccOf m).dtMap
    (goalEntriesOf (dartwinSegmentOf m) m.goals) m.allocations

/-- The graph builder darTwinToReactFlow. -/
def darTwinToReactFlow (m : DarTwinModel) : DarTwinGraph :=
  { nodes := (sysAccOf m).nodes ++ m.goals.map (goalNodeOf (dartwinSegmentOf m))
    edges := (sysAccOf m).edges ++ modelAllocationEdges m }

/-! ## Node id structure

Every node id produced by createIds is a type tag followed by the
whitespace-normalized segments of the containing names, joined by the
separator. nodePaths lists, in node order, the tagged segment path of
every node the builder emits. -/

def tagOf : NodeType → String
  | .dartwin => "dw"
  | .twinsystem => "ts"
  | .dt => "dt"
  | .at => "at"
  | .port => "port"
  | .goal => "goal"

def joinSegs : List String → String
  | [] => ""
  | [x] => x
  | x :: y :: xs => x ++ "::" ++ joinSegs (y :: xs)

def encodeId (dseg : String) (k : NodeType × List String) : String :=
  tagOf k.1 ++ "::" ++ joinSegs (dseg :: k.2)

def nodePathsOfSystem (s : TwinSystem) : List (NodeType × List String) :=
  (NodeType.twinsystem, [toSegment s.name]) ::
  ((s.digital_twins.flatMap fun dt =>
      (NodeType.dt, [toSegment s.name, toSegment dt.name]) ::
      dt.ports.map fun p =>
        (NodeType.port, [toSegment s.name, toSegment dt.name, toSegment p])) ++
   (s.original_twins.flatMap fun ot =>
      (NodeType.at, [toSegment s.name, toSegment ot.name]) ::
      ot.ports.map fun p =>
        (NodeType.port, [toSegment s.name, toSegment ot.name, toSegment p])))

def nodePaths (m : DarTwinModel) : List (NodeType × List String) :=
  (NodeType.dartwin, []) ::
  (m.systems.flatMap nodePathsOfSystem ++
   m.goals.map fun g => (NodeType.goal, [toSegment g.name]))

/-! ## Layout engine: layoutDigitalTwin (computeLayout.ts) -/

def DT_WIDTH : Int := 320
def DT_HEIGHT : Int := 160
def DT_GAP : Int := 60
def PORT_WIDTH : Int := 120
def PORT_HEIGHT : Int := 56
def SENSOR_GAP : Int := 70
def SENSOR_STACK_GAP : Int := 28
def ACTUATOR_VERTICAL_GAP : Int := 70
def ACTUATOR_HORIZONTAL_GAP : Int := 48
def SIDE_PORT_GAP : Int := 100
def SIDE_PORT_STACK_GAP : Int := 36
def TWIN_WIDTH : Int := 520
def TWIN_HEIGHT : Int := 340

def groupByParent (nodes : List DarTwinNode) (parentId : String) :
    List DarTwinNode :=
  nodes.filter fun n => n.parentId == some parentId

/-- Lexicographic code-point comparison of character lists. -/
def charListLe : List Char → List Char → Bool
  | [], _ => true
  | _ :: _, [] => false
  | a :: as, b :: bs =>
    if a.val < b.val then true
    else if b.val < a.val then false
    else charListLe as bs

/-- a.label.localeCompare(b.label) ascending, modelled by code-point order
(the collation details do not affect the properties proved below). -/
def byLabelLe (a b : DarTwinNode) : Prop :=
  charListLe a.label.data b.label.data = true

instance : DecidableRel byLabelLe := fun a b =>
  inferInstanceAs (Decidable (_ = true))

def lowerChars (l : List Char) : List Char := l.map Char.toLower

/-- Substring test used to model the case-insensitive regexp tests. -/
def hasSub (needle hay : List Char) : Bool :=
  hay.tails.any fun t => needle.isPrefixOf t

/-- isSensorPort: /sensor|input/i.test(node.label). -/
def isSensorPort (node : DarTwinNode) : Bool :=
  hasSub "sensor".data (lowerChars node.label.data) ||
  hasSub "input".data (lowerChars node.label.data)

/-- isActuatorPort: /actuator|output/i.test(node.label). -/
def isActuatorPort (node : DarTwinNode) : Bool :=
  hasSub "actuator".data (lowerChars node.label.data) ||
  hasSub "output".data (lowerChars node.label.data)

structure DigitalTwinAnchors where
  sensorBaseX : Int
  sensorY : Int
  actuatorStartX : Int
  actuatorY : Int
  actuatorCount : Nat

abbrev PosMap := List (String × (Int × Int))

/-- The ports of a digital twin as layoutDigitalTwin collects them:
children of the twin, sorted by label. -/
def dtPortsOf (allPorts : List DarTwinNode) (dt : DarTwinNode) :
    List DarTwinNode :=
  (groupByParent allPorts dt.id).insertionSort byLabelLe

/-- The digital twin box position computed by layoutDigitalTwin. -/
def dtBoxPos (twinPos : Int × Int) (dtIndex dtCount : Nat) : Int × Int :=
  let dtSpanWidth : Int := dtCount * DT_WIDTH + max 0 ((dtCount : Int) - 1) * DT_GAP
  let dtStartX := twinPos.1 + (TWIN_WIDTH - dtSpanWidth) / 2
  (dtStartX + dtIndex * (DT_WIDTH + DT_GAP),
   twinPos.2 + (TWIN_HEIGHT - DT_HEIGHT) / 2)

/-- forEach with index: one position write per node, index-dependent. -/
def idxWrites (f : Nat → Int × Int) : List DarTwinNode → Nat → PosMap
  | [], _ => []
  | q :: G, i => (q.id, f i) :: idxWrites f G (i + 1)

/-- Position writes for the sensor-like ports (to the right of the twin,
vertically centered). -/
def sensorWrites (dtX dtY : Int) (sensorPorts : List DarTwinNode) : PosMap :=
  idxWrites
    (fun i => (dtX + DT_WIDTH + SENSOR_GAP + i * (PORT_WIDTH + SENSOR_STACK_GAP),
               dtY + DT_HEIGHT / 2 - PORT_HEIGHT / 2))
    sensorPorts 0

def actuatorStartXOf (dtX : Int) (n : Nat) : Int :=
  let actuatorRowWidth : Int := n * PORT_WIDTH +
    max 0 ((n : Int) - 1) * ACTUATOR_HORIZONTAL_GAP
  if 0 < n then dtX + (DT_WIDTH - actuatorRowWidth) / 2
  else dtX + (DT_WIDTH - PORT_WIDTH) / 2

/-- Position writes for the actuator-like ports (below the twin). -/
def actuatorWrites (dtX dtY : Int) (actuatorPorts : List DarTwinNode) : PosMap :=
  idxWrites
    (fun i => (actuatorStartXOf dtX actuatorPorts.length +
                 i * (PORT_WIDTH + ACTUATOR_HORIZONTAL_GAP),
               dtY + DT_HEIGHT + ACTUATOR_VERTICAL_GAP))
    actuatorPorts 0

/-- Position writes for the remaining ports (left of the twin); the empty
guard mirrors the source's if (appending no writes when there are no
remaining ports). -/
def remainingWrites (dtX dtY : Int) (remainingPorts : List DarTwinNode) : PosMap :=
  if 0 < remainingPorts.length then
    let totalHeight : Int := remainingPorts.length * PORT_HEIGHT +
      max 0 ((remainingPorts.length : Int) - 1) * SIDE_PORT_STACK_GAP
    let startY := dtY + (DT_HEIGHT - totalHeight) / 2
    let leftX := dtX - SIDE_PORT_GAP - PORT_WIDTH
    idxWrites
      (fun i => (leftX, startY + i * (PORT_HEIGHT + SIDE_PORT_STACK_GAP)))
      remainingPorts 0
  else []

/-- layoutDigitalTwin from computeLayout.ts. Positions are written in
program order (twin box, then sensor ports, actuator ports, remaining
ports); a later write to the same id overrides an earlier one, matching
the mutable position map. All divisions by 2 are exact on the values the
function produces, so Int division is faithful. -/
def layoutDigitalTwin (twinPos : Int × Int) (dt : DarTwinNode)
    (dtIndex dtCount : Nat) (allPorts : List DarTwinNode)
    (positions : PosMap) : PosMap × DigitalTwinAnchors :=
  let dtX := (dtBoxPos twinPos dtIndex dtCount).1
  let dtY := (dtBoxPos twinPos dtIndex dtCount).2
  let dtPorts := dtPortsOf allPorts dt
  let sensorPorts := dtPorts.filter isSensorPort
  let actuatorPorts := dtPorts.filter isActuatorPort
  let remainingPorts := dtPorts.filter fun p =>
    !(sensorPorts.contains p) && !(actuatorPorts.contains p)
  (positions ++ [(dt.id, (dtX, dtY))] ++ sensorWrites dtX dtY sensorPorts ++
     actuatorWrites dtX dtY actuatorPorts ++ remainingWrites dtX dtY remainingPorts,
   { sensorBaseX := dtX + DT_WIDTH + SENSOR_GAP
     sensorY := dtY + DT_HEIGHT / 2 - PORT_HEIGHT / 2
     actuatorStartX := actuatorStartXOf dtX actuatorPorts.length
     actuatorY := dtY + DT_HEIGHT + ACTUATOR_VERTICAL_GAP
     actuatorCount := actuatorPorts.length })

/-! Zones around the digital-twin rectangle, used to say on which side of
the twin a port has been placed. The twin box occupies
[dtPos.1, dtPos.1 + DT_WIDTH] x [dtPos.2, dtPos.2 + DT_HEIGHT] and a port
box is PORT_WIDTH x PORT_HEIGHT. -/

def inRightZone (dtPos pos : Int × Int) : Prop := dtPos.1 + DT_WIDTH ≤ pos.1

def inLeftZone (dtPos pos : Int × Int) : Prop := pos.1 + PORT_WIDTH ≤ dtPos.1

def inTopZone (dtPos pos : Int × Int) : Prop := pos.2 + PORT_HEIGHT ≤ dtPos.2

def inBottomZone (dtPos pos : Int × Int) : Prop := dtPos.2 + DT_HEIGHT ≤ pos.2

instance (dtPos pos : Int × Int) : Decidable (inRightZone dtPos pos) :=
  inferInstanceAs (Decidable (_ ≤ _))

instance (dtPos pos : Int × Int) : Decidable (inLeftZone dtPos pos) :=
  inferInstanceAs (Decidable (_ ≤ _))

instance (dtPos pos : Int × Int) : Decidable (inTopZone dtPos pos) :=
  inferInstanceAs (Decidable (_ ≤ _))

instance (dtPos pos : Int × Int) : Decidable (inBottomZone dtPos pos) :=
  inferInstanceAs (Decidable (_ ≤ _))

/-- The claim that the sensor ports sit on one side of the twin and the
actuator ports on the opposite side (left/right or top/bottom). -/
def oppositeSidesPlacement (dtPos : Int × Int)
    (sensorPos actuatorPos : List (Int × Int)) : Prop :=
  ((∀ p ∈ sensorPos, inRightZone dtPos p) ∧ (∀ p ∈ actuatorPos, inLeftZone dtPos p)) ∨
  ((∀ p ∈ sensorPos, inLeftZone dtPos p) ∧ (∀ p ∈ actuatorPos, inRightZone dtPos p)) ∨
  ((∀ p ∈ sensorPos, inTopZone dtPos p) ∧ (∀ p ∈ actuatorPos, inBottomZone dtPos p)) ∨
  ((∀ p ∈ sensorPos, inBottomZone dtPos p) ∧ (∀ p ∈ actuatorPos, inTopZone dtPos p))

instance (dtPos : Int × Int) (sensorPos actuatorPos : List (Int × Int)) :
    Decidable (oppositeSidesPlacement dtPos sensorPos actuatorPos) :=
  inferInstanceAs (Decidable
    (((∀ p ∈ sensorPos, inRightZone dtPos p) ∧ (∀ p ∈ actuatorPos, inLeftZone dtPos p)) ∨
     ((∀ p ∈ sensorPos, inLeftZone dtPos p) ∧ (∀ p ∈ actuatorPos, inRightZone dtPos p)) ∨
     ((∀ p ∈ sensorPos, inTopZone dtPos p) ∧ (∀ p ∈ actuatorPos, inBottomZone dtPos p)) ∨
     ((∀ p ∈ sensorPos, inBottomZone dtPos p) ∧ (∀ p ∈ actuatorPos, inTopZone dtPos p))))

/-! ## JavaScript values and the structural validator (isDarTwinModel)

JSValue covers the JSON-like universe the validator can meet: undefined,
null, booleans, numbers, strings, arrays and plain objects. -/

inductive JSValue where
  | jsUndefined
  | jsNull
  | bool (b : Bool)
  | num (n : Int)
  | str (s : String)
  | arr (elems : List JSValue)
  | obj (fields : List (String × JSValue))

/-- Property access value.k: a named property of a plain object, undefined
everywhere else (the guards only access named properties). -/
def getField : JSValue → String → JSValue
  | .obj fs, k =>
    match fs.find? (fun p => p.1 == k) with
    | some p => p.2
    | none => .jsUndefined
  | _, _ => .jsUndefined

/-- typeof value === "object" && value !== null (arrays included). -/
def isObjectG : JSValue → Bool
  | .obj _ => true
  | .arr _ => true
  | _ => false

/-- typeof value === "string". -/
def isStrG : JSValue → Bool
  | .str _ => true
  | _ => false

/-- typeof value === "undefined". -/
def isUndefG : JSValue → Bool
  | .jsUndefined => true
  | _ => false

/-- value === "DarTwin". -/
def isDarTwinLit : JSValue → Bool
  | .str s => s == "DarTwin"
  | _ => false

def isStringArrayG : JSValue → Bool
  | .arr xs => xs.all isStrG
  | _ => false

def isDigitalTwinG (v : JSValue) : Bool :=
  isObjectG v && isStrG (getField v "name") && isStringArrayG (getField v "ports")

def isOriginalTwinG (v : JSValue) : Bool :=
  isObjectG v && isStrG (getField v "name") && isStringArrayG (getField v "ports")

def isConnectionG (v : JSValue) : Bool :=
  isObjectG v && isStrG (getField v "from") && isStrG (getField v "to") &&
  (isUndefG (getField v "name") || isStrG (getField v "name"))

def isGoalG (v : JSValue) : Bool :=
  isObjectG v && isStrG (getField v "name") &&
  (isUndefG (getField v "doc") || isStrG (getField v "doc"))

def isAllocationG (v : JSValue) : Bool :=
  isObjectG v && isStrG (getField v "goal") && isStrG (getField v "target")

def isArrayAllG (pred : JSValue → Bool) : JSValue → Bool
  | .arr xs => xs.all pred
  | _ => false

def isTwinSystemG (v : JSValue) : Bool :=
  isObjectG v && isStrG (getField v "name") &&
  isArrayAllG isDigitalTwinG (getField v "digital_twins") &&
  isArrayAllG isOriginalTwinG (getField v "original_twins") &&
  isArrayAllG isConnectionG (getField v "connections")

def isPartialSliceG (v : JSValue) : Bool :=
  isObjectG v &&
  (isUndefG (getField v "systems") || isArrayAllG isTwinSystemG (getField v "systems")) &&
  (isUndefG (getField v "goals") || isArrayAllG isGoalG (getField v "goals")) &&
  (isUndefG (getField v "allocations") || isArrayAllG isAllocationG (getField v "allocations"))

def isDarTransG (v : JSValue) : Bool :=
  isObjectG v &&
  (isUndefG (getField v "core") || isPartialSliceG (getField v "core")) &&
  (isUndefG (getField v "before") || isPartialSliceG (getField v "before")) &&
  (isUndefG (getField v "after") || isPartialSliceG (getField v "after"))

/-- isDarTwinModel from the validator module. -/
def isDarTwinModelG (v : JSValue) : Bool :=
  isObjectG v && isDarTwinLit (getField v "type") && isStrG (getField v "name") &&
  isArrayAllG isTwinSystemG (getField v "systems") &&
  isArrayAllG isGoalG (getField v "goals") &&
  isArrayAllG isAllocationG (getField v "allocations") &&
  (isUndefG (getField v "dartrans") || isDarTransG (getField v "dartrans"))

/-! Modelled from the spec: the well-formed Model shape, written as
declarative predicates over JSValue (what typeof-object admits, which
fields are required strings, which lists must hold well-formed entries,
which fields are optional). -/

def WFObjectLike (v : JSValue) : Prop :=
  (∃ fs, v = .obj fs) ∨ (∃ es, v = .arr es)

def WFString (v : JSValue) : Prop := ∃ s, v = .str s

def WFOptional (P : JSValue → Prop) (v : JSValue) : Prop :=
  v = .jsUndefined ∨ P v

def WFStringArray (v : JSValue) : Prop :=
  ∃ es, v = .arr es ∧ ∀ e ∈ es, WFString e

def WFArrayOf (P : JSValue → Prop) (v : JSValue) : Prop :=
  ∃ es, v = .arr es ∧ ∀ e ∈ es, P e

def WFDigitalTwin (v : JSValue) : Prop :=
  WFObjectLike v ∧ WFString (getField v "name") ∧
  WFStringArray (getField v "ports")

def WFOriginalTwin (v : JSValue) : Prop :=
  WFObjectLike v ∧ WFString (getField v "name") ∧
  WFStringArray (getField v "ports")

def WFConnection (v : JSValue) : Prop :=
  WFObjectLike v ∧ WFString (getField v "from") ∧
  WFString (getField v "to") ∧ WFOptional WFString (getField v "name")

def WFGoal (v : JSValue) : Prop :=
  WFObjectLike v ∧ WFString (getField v "name") ∧
  WFOptional WFString (getField v "doc")

def WFAllocation (v : JSValue) : Prop :=
  WFObjectLike v ∧ WFString (getField v "goal") ∧
  WFString (getField v "target")

def WFTwinSystem (v : JSValue) : Prop :=
  WFObjectLike v ∧ WFString (getField v "name") ∧
  WFArrayOf WFDigitalTwin (getField v "digital_twins") ∧
  WFArrayOf WFOriginalTwin (getField v "original_twins") ∧
  WFArrayOf WFConnection (getField v "connections")

def WFPartialSlice (v : JSValue) : Prop :=
  WFObjectLike v ∧
  WFOptional (WFArrayOf WFTwinSystem) (getField v "systems") ∧
  WFOptional (WFArrayOf WFGoal) (getField v "goals") ∧
  WFOptional (WFArrayOf WFAllocation) (getField v "allocations")

def WFDarTrans (v : JSValue) : Prop :=
  WFObjectLike v ∧
  WFOptional WFPartialSlice (getField v "core") ∧
  WFOptional WFPartialSlice (getField v "before") ∧
  WFOptional WFPartialSlice (getField v "after")

def WFModel (v : JSValue) : Prop :=
  WFObjectLike v ∧ getField v "type" = .str "DarTwin" ∧
  WFString (getField v "name") ∧
  WFArrayOf WFTwinSystem (getField v "systems") ∧
  WFArrayOf WFGoal (getField v "goals") ∧
  WFArrayOf WFAllocation (getField v "allocations") ∧
  WFOptional WFDarTrans (getField v "dartrans")

/-- An ill-formed candidate whose discriminant field is right but whose
name field is missing. -/
def c8xMissingName : JSValue := .obj [("type", .str "DarTwin")]

/-- An ill-formed candidate whose name field is right but whose
discriminant field is wrong. -/
def c8xBadType : JSValue := .obj [("type", .str "X"), ("name", .str "m")]

/-! ## Parser (parseDarTwin.ts)

Each regular expression of the source is translated into a matcher on
character lists: the matcher succeeds at a position exactly when the regexp
matches there, and the surrounding scanners reproduce exec's search from
lastIndex (first match at or after the given index). Loops carry fuel (an
upper bound on the number of iterations, always sufficient since every
match consumes at least one character). -/

def sanitizeName (s : String) : String := jsTrim s

def isWsOnlyLine (s : String) : Bool := s.data.all isJsWs

/-- value.split("\n") on the underlying characters. -/
def splitLinesAux : List Char → List Char → List (List Char)
  | [], acc => [acc.reverse]
  | '\n' :: cs, acc => acc.reverse :: splitLinesAux cs []
  | c :: cs, acc => splitLinesAux cs (c :: acc)

def splitLines (s : String) : List String :=
  (splitLinesAux s.data []).map String.mk

/-- list.join(sep). -/
def joinWith (sep : String) : List String → String
  | [] => ""
  | [x] => x
  | x :: y :: xs => x ++ sep ++ joinWith sep (y :: xs)

/-- normalizeWhitespace from parseDarTwin.ts: split on newlines, trim each
line, drop whitespace-only lines, join with single spaces, trim. -/
def normalizeWhitespace (value : String) : String :=
  jsTrim (joinWith " "
    (((splitLines value).map jsTrim).filter fun line => !(isWsOnlyLine line)))

/-- Modelled from the spec: documentation text has each line's leading and
trailing whitespace stripped, blank lines removed, and the lines joined
(with single spaces) into one normalized string. -/
def specLineJoin (value : String) : String :=
  joinWith " " (((splitLines value).map jsTrim).filter fun line => line != "")

/-- Modelled from the spec: resolution order, first match wins: (1) exact
match; (2) match after prefixing with the current system name; (3) match
after stripping a leading system-name prefix if present; otherwise the
reference is unresolved. -/
def resolveOrderSpec (map : List (String × String)) (system reference : String) :
    Option String :=
  let t := jsTrim reference
  if (alistGet map t).isSome then alistGet map t
  else if (alistGet map (system ++ "." ++ t)).isSome then
    alistGet map (system ++ "." ++ t)
  else if (system ++ ".").isPrefixOf t then
    alistGet map (t.drop (system ++ ".").length)
  else none

def isWordChar (c : Char) : Bool := c.isAlpha || c.isDigit || c = '_'

def isNameChar (c : Char) : Bool := isWordChar c || c = '-'

def isRefChar (c : Char) : Bool := isWordChar c || c = '.'

def isTargetChar (c : Char) : Bool := isWordChar c || c = '.' || c = '-'

/-- Case-insensitive literal keyword match (the keyword is lowercase). -/
def matchKwCI : List Char → List Char → Option (List Char)
  | [], l => some l
  | _ :: _, [] => none
  | k :: ks, c :: cs => if c.toLower = k then matchKwCI ks cs else none

/-- One or more whitespace characters. -/
def matchWs1 (l : List Char) : Option (List Char) :=
  let ws := l.takeWhile isJsWs
  if ws.isEmpty then none else some (l.drop ws.length)

/-- One or more characters of a class, captured. -/
def matchChars1 (cls : Char → Bool) (l : List Char) :
    Option (List Char × List Char) :=
  let t := l.takeWhile cls
  if t.isEmpty then none else some (t, l.drop t.length)

/-- Header pattern: keyword, whitespace, captured name, optional
whitespace, opening brace. Returns the name and the number of characters
matched (the brace is the last matched character). -/
def matchHeaderAt (kw : List Char) (l : List Char) : Option (String × Nat) := do
  let rest0 ← matchKwCI kw l
  let rest1 ← matchWs1 rest0
  let (nm, rest2) ← matchChars1 isNameChar rest1
  let rest3 := rest2.dropWhile isJsWs
  match rest3 with
  | '\x7b' :: rest4 => some (String.mk nm, l.length - rest4.length)
  | _ => none

/-- port name ; -/
def matchPortAt (l : List Char) : Option (String × Nat) := do
  let rest0 ← matchKwCI "port".data l
  let rest1 ← matchWs1 rest0
  let (nm, rest2) ← matchChars1 isNameChar rest1
  let rest3 := rest2.dropWhile isJsWs
  match rest3 with
  | ';' :: rest4 => some (String.mk nm, l.length - rest4.length)
  | _ => none

/-- connect ref to ref (name id)? ; trailing-rest-of-line -/
def matchConnectAt (l : List Char) :
    Option ((String × String × Option String × List Char) × Nat) := do
  let rest0 ← matchKwCI "connect".data l
  let rest1 ← matchWs1 rest0
  let (f, rest2) ← matchChars1 isRefChar rest1
  let rest3 ← matchWs1 rest2
  let rest4 ← matchKwCI "to".data rest3
  let rest5 ← matchWs1 rest4
  let (t, rest6) ← matchChars1 isRefChar rest5
  let inlinePath : Option (Option (List Char) × List Char) := do
    let r1 ← matchWs1 rest6
    let r2 ← matchKwCI "name".data r1
    let r3 ← matchWs1 r2
    let (nm, r4) ← matchChars1 isNameChar r3
    let r5 := r4.dropWhile isJsWs
    match r5 with
    | ';' :: r6 => some (some nm, r6)
    | _ => none
  let afterSemi ←
    match inlinePath with
    | some res => some res
    | none =>
      let r := rest6.dropWhile isJsWs
      match r with
      | ';' :: r2 => some ((none : Option (List Char)), r2)
      | _ => none
  let trailing := afterSemi.2.takeWhile fun c => c ≠ '\n'
  let rest8 := afterSemi.2.drop trailing.length
  some ((String.mk f, String.mk t, afterSemi.1.map String.mk, trailing),
        l.length - rest8.length)

/-- allocate goal to target ; -/
def matchAllocAt (l : List Char) : Option ((String × String) × Nat) := do
  let rest0 ← matchKwCI "allocate".data l
  let rest1 ← matchWs1 rest0
  let (g, rest2) ← matchChars1 isNameChar rest1
  let rest3 ← matchWs1 rest2
  let rest4 ← matchKwCI "to".data rest3
  let rest5 ← matchWs1 rest4
  let (t, rest6) ← matchChars1 isTargetChar rest5
  let rest7 := rest6.dropWhile isJsWs
  match rest7 with
  | ';' :: rest8 => some ((String.mk g, String.mk t), l.length - rest8.length)
  | _ => none

/-- #goal name with an optional opening brace after optional whitespace. -/
def matchGoalAt (l : List Char) : Option ((String × Bool) × Nat) := do
  let rest0 ← matchKwCI "#goal".data l
  let rest1 ← matchWs1 rest0
  let (nm, rest2) ← matchChars1 isNameChar rest1
  let rest3 := rest2.dropWhile isJsWs
  match rest3 with
  | '\x7b' :: rest4 => some ((String.mk nm, true), l.length - rest4.length)
  | _ => some ((String.mk nm, false), l.length - rest3.length)

/-- Characters before the first closing star-slash of a comment. -/
def untilStarSlash : List Char → Option (List Char)
  | [] => none
  | '*' :: '/' :: _ => some []
  | c :: cs => (untilStarSlash cs).map fun r => c :: r

/-- doc slash-star ... star-slash (lazy body capture). -/
def matchDocAt (l : List Char) : Option (List Char) := do
  let rest0 ← matchKwCI "doc".data l
  let rest1 := rest0.dropWhile isJsWs
  match rest1 with
  | '/' :: '*' :: rest2 => untilStarSlash rest2
  | _ => none

/-- Keyword then optional whitespace then an opening brace. -/
def matchKwBraceAt (kw : List Char) (l : List Char) : Option Nat := do
  let rest0 ← matchKwCI kw l
  let rest1 := rest0.dropWhile isJsWs
  match rest1 with
  | '\x7b' :: rest2 => some (l.length - rest2.length)
  | _ => none

/-- // name : id comment matcher. -/
def matchCommentAt (l : List Char) : Option String :=
  match l with
  | '/' :: '/' :: rest =>
    let r1 := rest.dropWhile isJsWs
    match matchKwCI "name".data r1 with
    | some r2 =>
      (match r2.dropWhile isJsWs with
       | ':' :: r4 =>
         (match matchChars1 isNameChar (r4.dropWhile isJsWs) with
          | some (nm, _) => some (String.mk nm)
          | none => none)
       | _ => none)
    | none => none
  | _ => none

/-- First match of a pattern at or after a position (exec from lastIndex):
tries the matcher at every suffix, returning the match index and result. -/
def scanSuffixes {α : Type} (m : List Char → Option α) :
    List Char → Nat → Option (Nat × α)
  | [], i => (m []).map fun a => (i, a)
  | c :: t, i =>
    match m (c :: t) with
    | some a => some (i, a)
    | none => scanSuffixes m t (i + 1)

def scanFrom {α : Type} (m : List Char → Option α) (body : List Char)
    (start : Nat) : Option (Nat × α) :=
  scanSuffixes m (body.drop start) start

/-- extractBlock scan: index of the position where the depth counter first
returns to zero on a closing brace, none if the input runs out. -/
def extractLoop : List Char → Nat → Int → Option Nat
  | [], _, _ => none
  | c :: cs, i, depth =>
    if c = '\x7b' then extractLoop cs (i + 1) (depth + 1)
    else if c = '\x7d' then
      if depth - 1 = 0 then some i else extractLoop cs (i + 1) (depth - 1)
    else extractLoop cs (i + 1) depth

/-- src.slice(a, b). -/
def sliceList (l : List Char) (a b : Nat) : List Char := (l.take b).drop a

/-- extractBlock from parseDarTwin.ts. -/
def extractBlock (src : List Char) (openIdx : Nat) : List Char × Nat :=
  match extractLoop (src.drop openIdx) openIdx 0 with
  | some j => (sliceList src (openIdx + 1) j, j)
  | none => ([], src.length)

def parsePortsLoop : Nat → List Char → Nat → List String
  | 0, _, _ => []
  | fuel + 1, body, start =>
    match scanFrom matchPortAt body start with
    | none => []
    | some (idx, nm, len) =>
      sanitizeName nm :: parsePortsLoop fuel body (idx + len)

def parsePorts (body : List Char) : List String :=
  parsePortsLoop (body.length + 1) body 0

def parseDigitalTwinsLoop : Nat → List Char → Nat → List DigitalTwin
  | 0, _, _ => []
  | fuel + 1, body, start =>
    match scanFrom (matchHeaderAt "#digitaltwin".data) body start with
    | none => []
    | some (idx, nm, len) =>
      let (dtBody, endIdx) := extractBlock body (idx + len - 1)
      { name := sanitizeName nm, ports := parsePorts dtBody } ::
      parseDigitalTwinsLoop fuel body (endIdx + 1)

def parseDigitalTwins (body : List Char) : List DigitalTwin :=
  parseDigitalTwinsLoop (body.length + 1) body 0

def parseOriginalTwinsLoop : Nat → List Char → Nat → List OriginalTwin
  | 0, _, _ => []
  | fuel + 1, body, start =>
    match scanFrom (matchHeaderAt "part".data) body start with
    | none => []
    | some (idx, nm, len) =>
      let (partBody, endIdx) := extractBlock body (idx + len - 1)
      { name := sanitizeName nm, ports := parsePorts partBody } ::
      parseOriginalTwinsLoop fuel body (endIdx + 1)

def parseOriginalTwins (body : List Char) : List OriginalTwin :=
  parseOriginalTwinsLoop (body.length + 1) body 0

def parseConnectionName (inl : Option String) (trailing : List Char) :
    Option String :=
  match inl with
  | some s => some (sanitizeName s)
  | none =>
    if trailing.isEmpty then none
    else
      match scanSuffixes matchCommentAt trailing 0 with
      | some (_, nm) => some (sanitizeName nm)
      | none => none

def parseConnectionsLoop : Nat → List Char → Nat → List Connection
  | 0, _, _ => []
  | fuel + 1, body, start =>
    match scanFrom matchConnectAt body start with
    | none => []
    | some (idx, (f, t, inl, trailing), len) =>
      { from_ := sanitizeName f, to_ := sanitizeName t,
        name := parseConnectionName inl trailing } ::
      parseConnectionsLoop fuel body (idx + len)

def parseConnections (body : List Char) : List Connection :=
  parseConnectionsLoop (body.length + 1) body 0

def parseTwinSystemsLoop : Nat → List Char → Nat → List TwinSystem
  | 0, _, _ => []
  | fuel + 1, body, start =>
    match scanFrom (matchHeaderAt "#twinsystem".data) body start with
    | none => []
    | some (idx, nm, len) =>
      let (sysBody, endIdx) := extractBlock body (idx + len - 1)
      { name := sanitizeName nm,
        digital_twins := parseDigitalTwins sysBody,
        original_twins := parseOriginalTwins sysBody,
        connections := parseConnections sysBody } ::
      parseTwinSystemsLoop fuel body (endIdx + 1)

def parseTwinSystems (body : List Char) : List TwinSystem :=
  parseTwinSystemsLoop (body.length + 1) body 0

def parseGoalsLoop : Nat → List Char → Nat → List Goal
  | 0, _, _ => []
  | fuel + 1, body, start =>
    match scanFrom matchGoalAt body start with
    | none => []
    | some (idx, (nm, hasBrace), len) =>
      if hasBrace then
        let (goalBody, endIdx) := extractBlock body (idx + len - 1)
        let docOpt :=
          match scanSuffixes matchDocAt goalBody 0 with
          | some (_, raw) => some (normalizeWhitespace (String.mk raw))
          | none => none
        let docStored :=
          match docOpt with
          | some d => if d = "" then none else some d
          | none => none
        { name := sanitizeName nm, doc := docStored } ::
        parseGoalsLoop fuel body (endIdx + 1)
      else
        { name := sanitizeName nm, doc := none } ::
        parseGoalsLoop fuel body (idx + len)

def parseGoals (body : List Char) : List Goal :=
  parseGoalsLoop (body.length + 1) body 0

def parseAllocationsLoop : Nat → List Char → Nat → List Allocation
  | 0, _, _ => []
  | fuel + 1, body, start =>
    match scanFrom matchAllocAt body start with
    | none => []
    | some (idx, (g, t), len) =>
      { goal := sanitizeName g, target := sanitizeName t } ::
      parseAllocationsLoop fuel body (idx + len)

def parseAllocations (body : List Char) : List Allocation :=
  parseAllocationsLoop (body.length + 1) body 0

def buildSlice (body : List Char) : PartialDarTwinSlice :=
  let systems := parseTwinSystems body
  let goals := parseGoals body
  let allocations := parseAllocations body
  { systems := if systems.isEmpty then none else some systems
    goals := if goals.isEmpty then none else some goals
    allocations := if allocations.isEmpty then none else some allocations }

def parseDarTrans (body : List Char) : Option DarTrans :=
  match scanSuffixes (matchKwBraceAt "#dartrans".data) body 0 with
  | none => none
  | some (idx, len) =>
    let (transBody, _) := extractBlock body (idx + len - 1)
    let secOf := fun (kw : String) =>
      match scanSuffixes (matchKwBraceAt kw.data) transBody 0 with
      | none => none
      | some (sidx, slen) =>
        let (secBody, _) := extractBlock transBody (sidx + slen - 1)
        some (buildSlice secBody)
    let core := secOf "#core"
    let before := secOf "#before"
    let after := secOf "#after"
    if core.isNone && before.isNone && after.isNone then none
    else some { core := core, before := before, after := after }

def createEmptyModel : DarTwinModel :=
  { name := "", systems := [], goals := [], allocations := [], dartrans := none }

/-- parseDarTwin from parseDarTwin.ts. -/
def parseDarTwin (text : String) : DarTwinModel :=
  let l := text.data
  match scanSuffixes (matchHeaderAt "#dartwin".data) l 0 with
  | none => createEmptyModel
  | some (idx, nm, len) =>
    let (body, _) := extractBlock l (idx + len - 1)
    { name := sanitizeName nm
      systems := parseTwinSystems body
      goals := parseGoals body
      allocations := parseAllocations body
      dartrans := parseDarTrans body }

/-! ## The canonical sample document (App.tsx and the test suites) -/

def sampleText : String :=
  "#dartwin StrawberryCultivationTrans \x7b\n" ++
  "  #twinsystem Strawberry \x7b\n" ++
  "    connect Strawberry.Cultivation.MultiSensor        to StrawberryDT.multisensor_input;\n" ++
  "    connect StrawberryDT.actuator_output_irrigation   to Strawberry.Cultivation.IrrigationActuator;\n" ++
  "    connect StrawberryDT.actuator_output_human        to Strawberry.Cultivation.HumanActuator;\n" ++
  "    connect StrawberryDT.actuator_output_ventilation  to Strawberry.Cultivation.VentilationActuator;\n" ++
  "\n" ++
  "    #digitaltwin StrawberryDT \x7b\n" ++
  "      port multisensor_input;\n" ++
  "      port actuator_output_irrigation;\n" ++
  "      port actuator_output_human;\n" ++
  "      port actuator_output_ventilation;\n" ++
  "    \x7d\n" ++
  "\n" ++
  "    part Cultivation \x7b\n" ++
  "      port MultiSensor;\n" ++
  "      port IrrigationActuator;\n" ++
  "      port HumanActuator;\n" ++
  "      port VentilationActuator;\n" ++
  "    \x7d\n" ++
  "  \x7d\n" ++
  "\n" ++
  "  #goal increase_yield \x7b doc /* yield y higher y than before */ \x7d\n" ++
  "  #goal apply_decreased_water \x7b doc /* water consumption w lower w than before */ \x7d\n" ++
  "\n" ++
  "  allocate increase_yield to Strawberry.StrawberryDT;\n" ++
  "  allocate apply_decreased_water to Strawberry.StrawberryDT;\n" ++
  "\x7d"

/-! Declarative view of extractBlock: the depth counter over a segment is
the number of opening braces minus the number of closing braces; the
matching close of an opening brace is the first closing brace at which the
counter (which includes the opening brace itself) returns to zero. -/

def braceDelta (c : Char) : Int :=
  if c = '\x7b' then 1 else if c = '\x7d' then -1 else 0

def braceNet (l : List Char) : Int := (l.map braceDelta).sum

/-- A position n in l that closes the block started at position 0 of l,
for a scan beginning with depth d. -/
def RelClose (l : List Char) (d : Int) (n : Nat) : Prop :=
  n < l.length ∧ l.getD n ' ' = '\x7d' ∧ d + braceNet (l.take (n + 1)) = 0

instance (l : List Char) (d : Int) (n : Nat) : Decidable (RelClose l d n) :=
  inferInstanceAs (Decidable (_ ∧ _ ∧ _))

/-- j is the index of a closing brace matching the opening brace at
openIdx: the brace-depth counter over src[openIdx..j] returns to zero. -/
def IsMatchingClose (src : List Char) (openIdx j : Nat) : Prop :=
  openIdx ≤ j ∧ RelClose (src.drop openIdx) 0 (j - openIdx)

instance (src : List Char) (openIdx j : Nat) :
    Decidable (IsMatchingClose src openIdx j) :=
  inferInstanceAs (Decidable (_ ∧ _))

/-- A string free of the id-separator character. -/
def SegFree (s : String) : Prop := ∀ c ∈ s.data, c ≠ ':'

instance : DecidablePred SegFree := fun s =>
  inferInstanceAs (Decidable (∀ c ∈ s.data, c ≠ ':'))

/-! ## Concrete witness and counterexample inputs -/

/-- One system with a digital twin T (port p) and a part C (port q). -/
def c1wSystem : TwinSystem :=
  { name := "S"
    digital_twins := [{ name := "T", ports := ["p"] }]
    original_twins := [{ name := "C", ports := ["q"] }]
    connections := [] }

/-- A model exercising one resolvable connection and one allocation. -/
def c2wModel : DarTwinModel :=
  { name := "D"
    systems := [{ name := "S"
                  digital_twins := [{ name := "T", ports := ["p"] }]
                  original_twins := [{ name := "C", ports := ["q"] }]
                  connections := [{ from_ := "T.p", to_ := "C.q", name := none },
                                  { from_ := "T.p", to_ := "missing.x", name := none }] }]
    goals := [{ name := "g", doc := none }]
    allocations := [{ goal := "g", target := "S.T" },
                    { goal := "g", target := "S.nothere" }]
    dartrans := none }

def c10wModel : DarTwinModel :=
  { name := "D"
    systems := [{ name := "S"
                  digital_twins := [{ name := "T", ports := [] }]
                  original_twins := []
                  connections := [] }]
    goals := [{ name := "g", doc := none }]
    allocations := [{ goal := "g", target := "S.T" }]
    dartrans := none }

/-- A document whose goal doc contains a run of two spaces inside a line. -/
def c7xText : String :=
  "#dartwin D \x7b #goal g \x7b doc /* a  b */ \x7d \x7d"

/-- A digital twin with the spec's example ports: one sensor-like and two
actuator-like ports. -/
def c9Dt : DarTwinNode :=
  { id := "dt1", type := .dt, label := "T", parentId := some "ts1", doc := none }

/-- The sensor-like port of the C9 example twin (first element of
c9Ports). -/
def c9SensorPort : DarTwinNode :=
  { id := "p1", type := .port, label := "sensor_input",
    parentId := some "dt1", doc := none }

def c9Ports : List DarTwinNode :=
  [{ id := "p1", type := .port, label := "sensor_input",
     parentId := some "dt1", doc := none },
   { id := "p2", type := .port, label := "actuator_output_x",
     parentId := some "dt1", doc := none },
   { id := "p3", type := .port, label := "actuator_output_y",
     parentId := some "dt1", doc := none }]

def c9Result : PosMap :=
  (layoutDigitalTwin (120, 240) c9Dt 0 1 c9Ports []).1

/-- Two systems whose names differ only in whitespace-vs-underscore: their
normalized segments coincide. -/
def c6xModel : DarTwinModel :=
  { name := "D"
    systems := [{ name := "a b", digital_twins := [], original_twins := [], connections := [] },
                { name := "a_b", digital_twins := [], original_twins := [], connections := [] }]
    goals := [], allocations := [], dartrans := none }

/-- The model parsed from the canonical sample document. -/
def sampleModel : DarTwinModel := parseDarTwin sampleText

/-- The graph built from the canonical sample model. -/
def sampleGraph : DarTwinGraph := darTwinToReactFlow sampleModel

/-! # Theorems -/

/-! ## Association-list lemmas -/

theorem alistGet_mem {α : Type} {l : List (String × α)} {k : String} {v : α}
    (h : alistGet l k = some v) : (k, v) ∈ l := by
  induction l with
  | nil => simp [alistGet] at h
  | cons p rest ih =>
    obtain ⟨k2, v2⟩ := p
    simp only [alistGet] at h
    cases hr : alistGet rest k with
    | some r =>
      rw [hr] at h
      exact List.mem_cons_of_mem _ (ih (hr.trans (by injection h with h; rw [h])))
    | none =>
      rw [hr] at h
      by_cases hk : k2 = k
      · simp only [hk, if_pos rfl] at h
        injection h with h
        subst hk h
        exact List.mem_cons_self _ _
      · simp [hk] at h

theorem alistGet_eq_of_nodup {α : Type} {l : List (String × α)}
    (hnd : (l.map Prod.fst).Nodup) {k : String} {v : α} (h : (k, v) ∈ l) :
    alistGet l k = some v := by
  induction l with
  | nil => cases h
  | cons p rest ih =>
    obtain ⟨k2, v2⟩ := p
    simp only [List.map_cons, List.nodup_cons] at hnd
    rcases List.mem_cons.mp h with heq | hmem
    · obtain ⟨hk, hv⟩ := Prod.mk.injEq .. ▸ heq
      subst hk
      have hnone : alistGet rest k = none := by
        cases hr : alistGet rest k with
        | none => rfl
        | some r =>
          exact absurd (List.mem_map.mpr ⟨(k, r), alistGet_mem hr, rfl⟩) hnd.1
      simp [alistGet, hnone, hv]
    · have := ih hnd.2 hmem
      simp [alistGet, this]

theorem alistGet_none_of_not_mem {α : Type} {l : List (String × α)} {k : String}
    (h : ∀ v, (k, v) ∉ l) : alistGet l k = none := by
  cases hr : alistGet l k with
  | none => rfl
  | some v => exact absurd (alistGet_mem hr) (h v)

/-! ## Characterizations of the system fold -/

theorem foldl_portMap (dseg dwId : String) (ss : List TwinSystem) (acc : BuildAcc) :
    (ss.foldl (stepSystem dseg dwId) acc).portMap =
      acc.portMap ++ ss.flatMap (systemPortEntries dseg) := by
  induction ss generalizing acc with
  | nil => simp
  | cons s ss ih => simp [List.foldl_cons, stepSystem, ih, List.append_assoc]

theorem foldl_dtMap (dseg dwId : String) (ss : List TwinSystem) (acc : BuildAcc) :
    (ss.foldl (stepSystem dseg dwId) acc).dtMap =
      acc.dtMap ++ ss.flatMap (dtEntriesOfSystem dseg) := by
  induction ss generalizing acc with
  | nil => simp
  | cons s ss ih => simp [List.foldl_cons, stepSystem, ih, List.append_assoc]

theorem foldl_nodes (dseg dwId : String) (ss : List TwinSystem) (acc : BuildAcc) :
    (ss.foldl (stepSystem dseg dwId) acc).nodes =
      acc.nodes ++ ss.flatMap (systemNodes dseg dwId) := by
  induction ss generalizing acc with
  | nil => simp
  | cons s ss ih => simp [List.foldl_cons, stepSystem, ih, List.append_assoc]

/-! ## C1: connection reference resolution -/

/-- C1. The graph builder resolves a connection endpoint reference with the
spec's first-match-wins order (exact key, then system-prefixed, then
system-prefix-stripped); the port lookup the builder consults is the one
accumulated over the systems processed so far; and for a declared port of a
digital twin or a part, both the owner-qualified and the system-qualified
written forms resolve to the identical port node id. -/
theorem c1_connection_reference_resolution :
    (∀ pm sys r, resolvePortId pm sys r = resolveOrderSpec pm sys r) ∧
    (∀ m : DarTwinModel, (sysAccOf m).portMap =
      m.systems.flatMap (systemPortEntries (dartwinSegmentOf m))) ∧
    (∀ (dseg : String) (ss : List TwinSystem) (s : TwinSystem)
       (dt : DigitalTwin) (p : String),
       s ∈ ss → dt ∈ s.digital_twins → p ∈ dt.ports →
       ((ss.flatMap (systemPortEntries dseg)).map Prod.fst).Nodup →
       jsTrim (dt.name ++ "." ++ p) = dt.name ++ "." ++ p →
       jsTrim (s.name ++ "." ++ dt.name ++ "." ++ p) =
         s.name ++ "." ++ dt.name ++ "." ++ p →
       resolvePortId (ss.flatMap (systemPortEntries dseg)) s.name
           (dt.name ++ "." ++ p) = some (portId dseg s.name dt.name p) ∧
       resolvePortId (ss.flatMap (systemPortEntries dseg)) s.name
           (s.name ++ "." ++ dt.name ++ "." ++ p) =
         some (portId dseg s.name dt.name p)) ∧
    (∀ (dseg : String) (ss : List TwinSystem) (s : TwinSystem)
       (ot : OriginalTwin) (p : String),
       s ∈ ss → ot ∈ s.original_twins → p ∈ ot.ports →
       ((ss.flatMap (systemPortEntries dseg)).map Prod.fst).Nodup →
       jsTrim (ot.name ++ "." ++ p) = ot.name ++ "." ++ p →
       jsTrim (s.name ++ "." ++ ot.name ++ "." ++ p) =
         s.name ++ "." ++ ot.name ++ "." ++ p →
       resolvePortId (ss.flatMap (systemPortEntries dseg)) s.name
           (ot.name ++ "." ++ p) = some (portId dseg s.name ot.name p) ∧
       resolvePortId (ss.flatMap (systemPortEntries dseg)) s.name
           (s.name ++ "." ++ ot.name ++ "." ++ p) =
         some (portId dseg s.name ot.name p)) := by
  refine ⟨?_, ?_, ?_, ?_⟩
  · intro pm sys r
    unfold resolvePortId resolveOrderSpec
    cases h1 : alistGet pm (jsTrim r) with
    | some v => simp [h1]
    | none =>
      cases h2 : alistGet pm (sys ++ "." ++ jsTrim r) with
      | some v => simp [h1, h2]
      | none => simp [h1, h2]
  · intro m
    rw [sysAccOf, foldl_portMap]
    simp [initAcc]
  · intro dseg ss s dt p hs hdt hp hnd ht1 ht2
    have hkey1 : (dt.name ++ "." ++ p, portId dseg s.name dt.name p) ∈
        ss.flatMap (systemPortEntries dseg) := by
      refine List.mem_flatMap.mpr ⟨s, hs, ?_⟩
      refine List.mem_append.mpr (Or.inl ?_)
      refine List.mem_flatMap.mpr ⟨dt, hdt, ?_⟩
      refine List.mem_flatMap.mpr ⟨p, hp, ?_⟩
      simp
    have hkey2 : (s.name ++ "." ++ dt.name ++ "." ++ p,
        portId dseg s.name dt.name p) ∈ ss.flatMap (systemPortEntries dseg) := by
      refine List.mem_flatMap.mpr ⟨s, hs, ?_⟩
      refine List.mem_append.mpr (Or.inl ?_)
      refine List.mem_flatMap.mpr ⟨dt, hdt, ?_⟩
      refine List.mem_flatMap.mpr ⟨p, hp, ?_⟩
      simp
    constructor
    · have h1 := alistGet_eq_of_nodup hnd hkey1
      simp [resolvePortId, ht1, h1]
    · have h2 := alistGet_eq_of_nodup hnd hkey2
      simp [resolvePortId, ht2, h2]
  · intro dseg ss s ot p hs hot hp hnd ht1 ht2
    have hkey1 : (ot.name ++ "." ++ p, portId dseg s.name ot.name p) ∈
        ss.flatMap (systemPortEntries dseg) := by
      refine List.mem_flatMap.mpr ⟨s, hs, ?_⟩
      refine List.mem_append.mpr (Or.inr ?_)
      refine List.mem_flatMap.mpr ⟨ot, hot, ?_⟩
      refine List.mem_flatMap.mpr ⟨p, hp, ?_⟩
      simp
    have hkey2 : (s.name ++ "." ++ ot.name ++ "." ++ p,
        portId dseg s.name ot.name p) ∈ ss.flatMap (systemPortEntries dseg) := by
      refine List.mem_flatMap.mpr ⟨s, hs, ?_⟩
      refine List.mem_append.mpr (Or.inr ?_)
      refine List.mem_flatMap.mpr ⟨ot, hot, ?_⟩
      refine List.mem_flatMap.mpr ⟨p, hp, ?_⟩
      simp
    constructor
    · have h1 := alistGet_eq_of_nodup hnd hkey1
      simp [resolvePortId, ht1, h1]
    · have h2 := alistGet_eq_of_nodup hnd hkey2
      simp [resolvePortId, ht2, h2]

/-- Witness for C1: in a one-system model the owner-qualified and
system-qualified forms of a digital-twin port and of a part port all
resolve to the respective declared port node id. -/
theorem c1_connection_reference_resolution_witness :
    resolvePortId ([c1wSystem].flatMap (systemPortEntries "D")) "S" "T.p" =
      some (portId "D" "S" "T" "p") ∧
    resolvePortId ([c1wSystem].flatMap (systemPortEntries "D")) "S" "S.T.p" =
      some (portId "D" "S" "T" "p") ∧
    resolvePortId ([c1wSystem].flatMap (systemPortEntries "D")) "S" "C.q" =
      some (portId "D" "S" "C" "q") ∧
    resolvePortId ([c1wSystem].flatMap (systemPortEntries "D")) "S" "S.C.q" =
      some (portId "D" "S" "C" "q") := by
  have hdt := c1_connection_reference_resolution.2.2.1 "D" [c1wSystem] c1wSystem
    { name := "T", ports := ["p"] } "p" (by decide) (by decide) (by decide)
    (by decide) (by decide) (by decide)
  have hot := c1_connection_reference_resolution.2.2.2 "D" [c1wSystem] c1wSystem
    { name := "C", ports := ["q"] } "q" (by decide) (by decide) (by decide)
    (by decide) (by decide) (by decide)
  exact ⟨hdt.1, hdt.2, hot.1, hot.2⟩

/-! ## Endpoint membership lemmas -/

theorem resolvePortId_mem {pm : List (String × String)} {sys r v : String}
    (h : resolvePortId pm sys r = some v) : ∃ k, (k, v) ∈ pm := by
  cases h1 : alistGet pm (jsTrim r) with
  | some w =>
    simp only [resolvePortId, h1] at h
    exact ⟨_, alistGet_mem (h1.trans (by rw [h]))⟩
  | none =>
    cases h2 : alistGet pm (sys ++ "." ++ jsTrim r) with
    | some w =>
      simp only [resolvePortId, h1, h2] at h
      exact ⟨_, alistGet_mem (h2.trans (by rw [h]))⟩
    | none =>
      simp only [resolvePortId, h1, h2] at h
      by_cases hpre : (sys ++ ".").isPrefixOf (jsTrim r)
      · rw [if_pos hpre] at h
        exact ⟨_, alistGet_mem h⟩
      · rw [if_neg hpre] at h
        cases h

theorem resolveDigitalTwinId_mem {dm : List (String × String)} {sys t v : String}
    (h : resolveDigitalTwinId dm sys t = some v) : ∃ k, (k, v) ∈ dm := by
  cases h1 : alistGet dm (jsTrim t) with
  | some w =>
    simp only [resolveDigitalTwinId, h1] at h
    exact ⟨_, alistGet_mem (h1.trans (by rw [h]))⟩
  | none =>
    simp only [resolveDigitalTwinId, h1] at h
    by_cases hpre : (sys ++ ".").isPrefixOf (jsTrim t)
    · rw [if_pos hpre] at h
      exact ⟨_, alistGet_mem h⟩
    · rw [if_neg hpre] at h
      cases h

theorem portId_mem_systemNodes (dseg dwId : String) (s : TwinSystem)
    {tn : String} {ports : List String} (p : String)
    (hdt : (∃ dt ∈ s.digital_twins, dt.name = tn ∧ dt.ports = ports) ∨
           (∃ ot ∈ s.original_twins, ot.name = tn ∧ ot.ports = ports))
    (hp : p ∈ ports) :
    portId dseg s.name tn p ∈ (systemNodes dseg dwId s).map (·.id) := by
  rcases hdt with ⟨dt, hdt, hn, hps⟩ | ⟨ot, hot, hn, hps⟩
  · refine List.mem_map.mpr
      ⟨⟨portId dseg s.name tn p, .port, p, some (digitalId dseg s.name tn), none⟩, ?_, rfl⟩
    unfold systemNodes
    refine List.mem_cons_of_mem _ (List.mem_append.mpr (Or.inl ?_))
    refine List.mem_flatMap.mpr ⟨dt, hdt, List.mem_cons_of_mem _ ?_⟩
    unfold portNodesOfTwin
    subst hn hps
    exact List.mem_map.mpr ⟨p, hp, rfl⟩
  · refine List.mem_map.mpr
      ⟨⟨portId dseg s.name tn p, .port, p, some (originalId dseg s.name tn), none⟩, ?_, rfl⟩
    unfold systemNodes
    refine List.mem_cons_of_mem _ (List.mem_append.mpr (Or.inr ?_))
    refine List.mem_flatMap.mpr ⟨ot, hot, List.mem_cons_of_mem _ ?_⟩
    unfold portNodesOfTwin
    subst hn hps
    exact List.mem_map.mpr ⟨p, hp, rfl⟩

theorem digitalId_mem_systemNodes (dseg dwId : String) (s : TwinSystem)
    {dt : DigitalTwin} (hdt : dt ∈ s.digital_twins) :
    digitalId dseg s.name dt.name ∈ (systemNodes dseg dwId s).map (·.id) := by
  refine List.mem_map.mpr
    ⟨⟨digitalId dseg s.name dt.name, .dt, dt.name, some (systemId dseg s.name), none⟩, ?_, rfl⟩
  unfold systemNodes
  refine List.mem_cons_of_mem _ (List.mem_append.mpr (Or.inl ?_))
  exact List.mem_flatMap.mpr ⟨dt, hdt, List.mem_cons_self _ _⟩

theorem systemPortEntries_val_mem (dseg dwId : String) (s : TwinSystem)
    {kv : String × String} (h : kv ∈ systemPortEntries dseg s) :
    kv.2 ∈ (systemNodes dseg dwId s).map (·.id) := by
  unfold systemPortEntries at h
  rcases List.mem_append.mp h with hdt | hot
  · obtain ⟨dt, hdt, hkv⟩ := List.mem_flatMap.mp hdt
    unfold portEntriesOfTwin at hkv
    obtain ⟨p, hp, hkv⟩ := List.mem_flatMap.mp hkv
    simp only [List.mem_cons, List.not_mem_nil, or_false] at hkv
    rcases hkv with h1 | h1 <;>
      (rw [h1];
       exact portId_mem_systemNodes dseg dwId s p (Or.inl ⟨dt, hdt, rfl, rfl⟩) hp)
  · obtain ⟨ot, hot, hkv⟩ := List.mem_flatMap.mp hot
    unfold portEntriesOfTwin at hkv
    obtain ⟨p, hp, hkv⟩ := List.mem_flatMap.mp hkv
    simp only [List.mem_cons, List.not_mem_nil, or_false] at hkv
    rcases hkv with h1 | h1 <;>
      (rw [h1];
       exact portId_mem_systemNodes dseg dwId s p (Or.inr ⟨ot, hot, rfl, rfl⟩) hp)

theorem connectionEdges_endpoints {pm : List (String × String)} {s : TwinSystem}
    {e : DarTwinEdge} (h : e ∈ connectionEdgesOf pm s) :
    (∃ k, (k, e.source) ∈ pm) ∧ (∃ k, (k, e.target) ∈ pm) := by
  unfold connectionEdgesOf at h
  obtain ⟨ic, _, hsome⟩ := List.mem_filterMap.mp h
  cases h1 : resolvePortId pm s.name ic.2.from_ with
  | none => simp [h1] at hsome
  | some a =>
    cases h2 : resolvePortId pm s.name ic.2.to_ with
    | none => simp [h1, h2] at hsome
    | some b =>
      simp only [h1, h2] at hsome
      injection hsome with hsome
      rw [← hsome]
      exact ⟨resolvePortId_mem h1, resolvePortId_mem h2⟩

theorem foldl_acc_ok (dseg dwId : String) (ss : List TwinSystem) (acc : BuildAcc)
    (hpm : ∀ kv ∈ acc.portMap, kv.2 ∈ acc.nodes.map (·.id))
    (hed : ∀ e ∈ acc.edges,
      e.source ∈ acc.nodes.map (·.id) ∧ e.target ∈ acc.nodes.map (·.id)) :
    (∀ kv ∈ (ss.foldl (stepSystem dseg dwId) acc).portMap,
       kv.2 ∈ (ss.foldl (stepSystem dseg dwId) acc).nodes.map (·.id)) ∧
    (∀ e ∈ (ss.foldl (stepSystem dseg dwId) acc).edges,
       e.source ∈ (ss.foldl (stepSystem dseg dwId) acc).nodes.map (·.id) ∧
       e.target ∈ (ss.foldl (stepSystem dseg dwId) acc).nodes.map (·.id)) := by
  induction ss generalizing acc with
  | nil => exact ⟨hpm, hed⟩
  | cons s rest ih =>
    simp only [List.foldl_cons]
    have hpm2 : ∀ kv ∈ (stepSystem dseg dwId acc s).portMap,
        kv.2 ∈ (stepSystem dseg dwId acc s).nodes.map (·.id) := by
      intro kv hkv
      simp only [stepSystem] at hkv ⊢
      rw [List.map_append]
      rcases List.mem_append.mp hkv with hold | hnew
      · exact List.mem_append.mpr (Or.inl (hpm kv hold))
      · exact List.mem_append.mpr
          (Or.inr (systemPortEntries_val_mem dseg dwId s hnew))
    have hed2 : ∀ e ∈ (stepSystem dseg dwId acc s).edges,
        e.source ∈ (stepSystem dseg dwId acc s).nodes.map (·.id) ∧
        e.target ∈ (stepSystem dseg dwId acc s).nodes.map (·.id) := by
      intro e hee
      simp only [stepSystem] at hee ⊢
      rw [List.map_append]
      rcases List.mem_append.mp hee with hold | hnew
      · obtain ⟨h1, h2⟩ := hed e hold
        exact ⟨List.mem_append.mpr (Or.inl h1), List.mem_append.mpr (Or.inl h2)⟩
      · obtain ⟨⟨k1, hk1⟩, ⟨k2, hk2⟩⟩ := connectionEdges_endpoints hnew
        constructor
        · rcases List.mem_append.mp hk1 with hold1 | hnew1
          · exact List.mem_append.mpr (Or.inl (hpm (k1, e.source) hold1))
          · exact List.mem_append.mpr
              (Or.inr (systemPortEntries_val_mem dseg dwId s hnew1))
        · rcases List.mem_append.mp hk2 with hold2 | hnew2
          · exact List.mem_append.mpr (Or.inl (hpm (k2, e.target) hold2))
          · exact List.mem_append.mpr
              (Or.inr (systemPortEntries_val_mem dseg dwId s hnew2))
    exact ih (stepSystem dseg dwId acc s) hpm2 hed2

theorem dtMap_val_mem (m : DarTwinModel) {kv : String × String}
    (h : kv ∈ (sysAccOf m).dtMap) :
    ∃ s ∈ m.systems, ∃ dt ∈ s.digital_twins,
      kv.2 = digitalId (dartwinSegmentOf m) s.name dt.name := by
  rw [sysAccOf, foldl_dtMap] at h
  simp only [initAcc, List.nil_append] at h
  obtain ⟨s, hs, hkv⟩ := List.mem_flatMap.mp h
  unfold dtEntriesOfSystem at hkv
  obtain ⟨dt, hdt, hkv⟩ := List.mem_flatMap.mp hkv
  simp only [List.mem_cons, List.not_mem_nil, or_false] at hkv
  rcases hkv with h1 | h1 <;> exact ⟨s, hs, dt, hdt, by rw [h1]⟩

/-! ## C2: edges always reference existing nodes -/

/-- C2. For every Model (the builder is a total function, so it cannot
throw), every edge of the built graph has a source and a target equal to
the id of some node of the same graph; connections and allocations whose
references do not resolve contribute no edge at all, so no dangling
endpoint is ever fabricated. -/
theorem c2_every_edge_references_existing_nodes (m : DarTwinModel)
    (e : DarTwinEdge) (he : e ∈ (darTwinToReactFlow m).edges) :
    (∃ n ∈ (darTwinToReactFlow m).nodes, n.id = e.source) ∧
    (∃ n ∈ (darTwinToReactFlow m).nodes, n.id = e.target) := by
  have hview : (darTwinToReactFlow m).edges =
      (sysAccOf m).edges ++ modelAllocationEdges m := rfl
  have hnview : (darTwinToReactFlow m).nodes =
      (sysAccOf m).nodes ++ m.goals.map (goalNodeOf (dartwinSegmentOf m)) := rfl
  rw [hview] at he
  have idlift : ∀ {x : String}, x ∈ (sysAccOf m).nodes.map (·.id) →
      ∃ n ∈ (darTwinToReactFlow m).nodes, n.id = x := by
    intro x hx
    obtain ⟨n, hn, hid⟩ := List.mem_map.mp hx
    exact ⟨n, by rw [hnview]; exact List.mem_append.mpr (Or.inl hn), hid⟩
  rcases List.mem_append.mp he with hconn | halloc
  · have hok := foldl_acc_ok (dartwinSegmentOf m)
      (dartwinIdOf (dartwinSegmentOf m)) m.systems (initAcc m)
      (by intro kv hkv; simp [initAcc] at hkv)
      (by intro e2 he2; simp [initAcc] at he2)
    obtain ⟨h1, h2⟩ := hok.2 e hconn
    exact ⟨idlift h1, idlift h2⟩
  · unfold modelAllocationEdges allocationEdgesOf at halloc
    obtain ⟨a, ha, hsome⟩ := List.mem_filterMap.mp halloc
    cases h1 : alistGet (goalEntriesOf (dartwinSegmentOf m) m.goals) a.goal with
    | none =>
      cases h2 : resolveDigitalTwinId (sysAccOf m).dtMap
          ((a.target.splitOn ".").headD "") a.target with
      | none => rw [h1, h2] at hsome; simp at hsome
      | some t => rw [h1, h2] at hsome; simp at hsome
    | some g =>
      cases h2 : resolveDigitalTwinId (sysAccOf m).dtMap
          ((a.target.splitOn ".").headD "") a.target with
      | none => rw [h1, h2] at hsome; simp at hsome
      | some t =>
        rw [h1, h2] at hsome
        simp only [Option.some.injEq] at hsome
        rw [← hsome]
        constructor
        · obtain ⟨k, hk⟩ := resolveDigitalTwinId_mem h2
          obtain ⟨s, hs, dt, hdt, hid⟩ := dtMap_val_mem m hk
          have hid2 : t = digitalId (dartwinSegmentOf m) s.name dt.name := hid
          refine idlift ?_
          rw [sysAccOf, foldl_nodes]
          simp only [List.map_append]
          refine List.mem_append.mpr (Or.inr ?_)
          rw [List.map_flatMap]
          show t ∈ _
          rw [hid2]
          exact List.mem_flatMap.mpr ⟨s, hs,
            digitalId_mem_systemNodes _ _ s hdt⟩
        · have := alistGet_mem h1
          unfold goalEntriesOf at this
          obtain ⟨gl, hgl, hpair⟩ := List.mem_map.mp this
          have hg : g = goalId (dartwinSegmentOf m) gl.name := by
            injection hpair with hpa hpb
            exact hpb.symm
          refine ⟨goalNodeOf (dartwinSegmentOf m) gl, ?_, ?_⟩
          · rw [hnview]
            exact List.mem_append.mpr (Or.inr (List.mem_map.mpr ⟨gl, hgl, rfl⟩))
          · simp [goalNodeOf, hg]

/-- Witness for C2 at a concrete model and edge: the model declares one
resolvable connection plus one dangling connection and one dangling
allocation; the surviving connection edge's endpoints are node ids. -/
theorem c2_every_edge_references_existing_nodes_witness :
    (∃ n ∈ (darTwinToReactFlow c2wModel).nodes,
       n.id = "port::D::S::T::p") ∧
    (∃ n ∈ (darTwinToReactFlow c2wModel).nodes,
       n.id = "port::D::S::C::q") := by
  have h := c2_every_edge_references_existing_nodes c2wModel
    { id := "connect::S::0", source := "port::D::S::T::p",
      target := "port::D::S::C::q", label := none } (by decide)
  exact h

/-! ## C10: allocation edge orientation and shape -/

/-- C10. Every allocation edge the builder emits runs from the resolved
digital-twin node id (source) to the goal node id (target) — the reverse of
the textual allocate-goal-to-target reading — with label allocate and id
allocation::target-segment::goal-segment. -/
theorem c10_allocation_edge_shape (m : DarTwinModel) (e : DarTwinEdge)
    (he : e ∈ modelAllocationEdges m) :
    e ∈ (darTwinToReactFlow m).edges ∧
    e.label = some "allocate" ∧
    ∃ a ∈ m.allocations,
      e.id = "allocation::" ++ toSegment a.target ++ "::" ++ toSegment a.goal ∧
      e.target = goalId (dartwinSegmentOf m) a.goal ∧
      ∃ s ∈ m.systems, ∃ dt ∈ s.digital_twins,
        e.source = digitalId (dartwinSegmentOf m) s.name dt.name := by
  refine ⟨List.mem_append.mpr (Or.inr he), ?_⟩
  unfold modelAllocationEdges allocationEdgesOf at he
  obtain ⟨a, ha, hsome⟩ := List.mem_filterMap.mp he
  cases h1 : alistGet (goalEntriesOf (dartwinSegmentOf m) m.goals) a.goal with
  | none =>
    cases h2 : resolveDigitalTwinId (sysAccOf m).dtMap
        ((a.target.splitOn ".").headD "") a.target with
    | none => rw [h1, h2] at hsome; simp at hsome
    | some t => rw [h1, h2] at hsome; simp at hsome
  | some g =>
    cases h2 : resolveDigitalTwinId (sysAccOf m).dtMap
        ((a.target.splitOn ".").headD "") a.target with
    | none => rw [h1, h2] at hsome; simp at hsome
    | some t =>
      rw [h1, h2] at hsome
      simp only [Option.some.injEq] at hsome
      rw [← hsome]
      refine ⟨rfl, a, ha, rfl, ?_, ?_⟩
      · have := alistGet_mem h1
        unfold goalEntriesOf at this
        obtain ⟨gl, hgl, hpair⟩ := List.mem_map.mp this
        injection hpair with hpa hpb
        rw [← hpb, ← hpa]
      · obtain ⟨k, hk⟩ := resolveDigitalTwinId_mem h2
        obtain ⟨s, hs, dt, hdt, hid⟩ := dtMap_val_mem m hk
        exact ⟨s, hs, dt, hdt, hid⟩

/-- Witness for C10: the single allocation of the concrete model yields the
edge from the digital-twin node to the goal node. -/
theorem c10_allocation_edge_shape_witness :
    ({ id := "allocation::S.T::g", source := "dt::D::S::T",
       target := "goal::D::g", label := some "allocate" } : DarTwinEdge) ∈
      (darTwinToReactFlow c10wModel).edges ∧
    (some "allocate" : Option String) = some "allocate" ∧
    ∃ a ∈ c10wModel.allocations,
      "allocation::S.T::g" =
        "allocation::" ++ toSegment a.target ++ "::" ++ toSegment a.goal ∧
      "goal::D::g" = goalId (dartwinSegmentOf c10wModel) a.goal ∧
      ∃ s ∈ c10wModel.systems, ∃ dt ∈ s.digital_twins,
        "dt::D::S::T" = digitalId (dartwinSegmentOf c10wModel) s.name dt.name := by
  exact c10_allocation_edge_shape c10wModel
    { id := "allocation::S.T::g", source := "dt::D::S::T",
      target := "goal::D::g", label := some "allocate" } (by decide)

/-! ## C6: node id derivation and distinctness -/

theorem sepSplit {a b r s : List Char} (ha : ∀ c ∈ a, c ≠ ':')
    (hb : ∀ c ∈ b, c ≠ ':')
    (h : a ++ ':' :: ':' :: r = b ++ ':' :: ':' :: s) : a = b ∧ r = s := by
  induction a generalizing b with
  | nil =>
    cases b with
    | nil => simpa using h
    | cons x xs =>
      rw [List.nil_append, List.cons_append] at h
      injection h with h1 h2
      exact absurd h1.symm (hb x (List.mem_cons_self _ _))
  | cons x xs ih =>
    cases b with
    | nil =>
      rw [List.nil_append, List.cons_append] at h
      injection h with h1 h2
      exact absurd h1 (ha x (List.mem_cons_self _ _))
    | cons y ys =>
      rw [List.cons_append, List.cons_append] at h
      injection h with h1 h2
      obtain ⟨hab, hrs⟩ := ih (fun c hc => ha c (List.mem_cons_of_mem _ hc))
        (fun c hc => hb c (List.mem_cons_of_mem _ hc)) h2
      exact ⟨by rw [h1, hab], hrs⟩

theorem tagOf_segFree (t : NodeType) : SegFree (tagOf t) := by
  intro c hc hceq
  subst hceq
  cases t <;> exact absurd hc (by decide)

theorem tagOf_inj {t1 t2 : NodeType} (h : tagOf t1 = tagOf t2) : t1 = t2 := by
  cases t1 <;> cases t2 <;> first | rfl | (exact absurd h (by decide))

theorem joinSegs_inj : ∀ {l1 l2 : List String}, l1 ≠ [] → l2 ≠ [] →
    (∀ x ∈ l1, SegFree x) → (∀ x ∈ l2, SegFree x) →
    joinSegs l1 = joinSegs l2 → l1 = l2 := by
  intro l1
  induction l1 with
  | nil => intro l2 h1; exact absurd rfl h1
  | cons x xs ih =>
    intro l2 _ h2 hf1 hf2 heq
    cases l2 with
    | nil => exact absurd rfl h2
    | cons y ys =>
      cases xs with
      | nil =>
        cases ys with
        | nil => rw [show x = y by simpa [joinSegs] using heq]
        | cons y2 ys2 =>
          exfalso
          rw [joinSegs, joinSegs] at heq
          have hdata := congrArg String.data heq
          simp only [String.data_append] at hdata
          have hcolon : (':' : Char) ∈ x.data := by
            rw [hdata]
            simp
          exact hf1 x (List.mem_cons_self _ _) ':' hcolon rfl
      | cons x2 xs2 =>
        cases ys with
        | nil =>
          exfalso
          rw [joinSegs, joinSegs] at heq
          have hdata := congrArg String.data heq
          simp only [String.data_append] at hdata
          have hcolon : (':' : Char) ∈ y.data := by
            rw [← hdata]
            simp
          exact hf2 y (List.mem_cons_self _ _) ':' hcolon rfl
        | cons y2 ys2 =>
          rw [joinSegs, joinSegs] at heq
          have hdata := congrArg String.data heq
          simp only [String.data_append] at hdata
          simp only [List.append_assoc, List.cons_append, List.nil_append] at hdata
          obtain ⟨hxy, hrest⟩ := sepSplit
            (fun c hc => hf1 x (List.mem_cons_self _ _) c hc)
            (fun c hc => hf2 y (List.mem_cons_self _ _) c hc) hdata
          have hx : x = y := String.ext hxy
          have hj : joinSegs (x2 :: xs2) = joinSegs (y2 :: ys2) := by
            apply String.ext
            exact hrest
          have := @ih (y2 :: ys2) (by simp) (by simp)
            (fun z hz => hf1 z (List.mem_cons_of_mem _ hz))
            (fun z hz => hf2 z (List.mem_cons_of_mem _ hz)) hj
          rw [hx, this]

theorem joinSegs_tail_inj (d : String) {l1 l2 : List String}
    (hf1 : ∀ x ∈ l1, SegFree x) (hf2 : ∀ x ∈ l2, SegFree x)
    (h : joinSegs (d :: l1) = joinSegs (d :: l2)) : l1 = l2 := by
  cases l1 with
  | nil =>
    cases l2 with
    | nil => rfl
    | cons y ys =>
      exfalso
      rw [joinSegs, joinSegs] at h
      have hdata := congrArg String.data h
      simp only [String.data_append] at hdata
      have hlen := congrArg List.length hdata
      simp only [List.length_append, List.length_cons, List.length_nil] at hlen
      omega
  | cons x xs =>
    cases l2 with
    | nil =>
      exfalso
      rw [joinSegs, joinSegs] at h
      have hdata := congrArg String.data h
      simp only [String.data_append] at hdata
      have hlen := congrArg List.length hdata
      simp only [List.length_append, List.length_cons, List.length_nil] at hlen
      omega
    | cons y ys =>
      rw [joinSegs, joinSegs] at h
      have hdata := congrArg String.data h
      simp only [String.data_append, List.append_assoc] at hdata
      have h2 : joinSegs (x :: xs) = joinSegs (y :: ys) := by
        apply String.ext
        exact List.append_cancel_left (List.append_cancel_left hdata)
      exact joinSegs_inj (by simp) (by simp) hf1 hf2 h2

theorem encodeId_inj (dseg : String) {k1 k2 : NodeType × List String}
    (h1 : ∀ s ∈ k1.2, SegFree s) (h2 : ∀ s ∈ k2.2, SegFree s)
    (heq : encodeId dseg k1 = encodeId dseg k2) : k1 = k2 := by
  obtain ⟨t1, l1⟩ := k1
  obtain ⟨t2, l2⟩ := k2
  unfold encodeId at heq
  have hdata := congrArg String.data heq
  simp only [String.data_append] at hdata
  simp only [List.append_assoc, List.cons_append, List.nil_append] at hdata
  obtain ⟨htag, hrest⟩ := sepSplit
    (fun c hc => tagOf_segFree t1 c hc) (fun c hc => tagOf_segFree t2 c hc) hdata
  have ht : t1 = t2 := tagOf_inj (String.ext htag)
  have hl : l1 = l2 := by
    refine joinSegs_tail_inj dseg h1 h2 (String.ext hrest)
  rw [ht, hl]

theorem encode_dw (dseg : String) :
    dartwinIdOf dseg = encodeId dseg (NodeType.dartwin, []) := rfl

theorem encode_ts (dseg n : String) :
    systemId dseg n = encodeId dseg (NodeType.twinsystem, [toSegment n]) := by
  simp only [systemId, encodeId, tagOf, joinSegs]
  rw [show ("ts" ++ "::" : String) = "ts::" from rfl]
  simp [String.append_assoc]

theorem encode_dt (dseg sn tn : String) :
    digitalId dseg sn tn =
      encodeId dseg (NodeType.dt, [toSegment sn, toSegment tn]) := by
  simp only [digitalId, encodeId, tagOf, joinSegs]
  rw [show ("dt" ++ "::" : String) = "dt::" from rfl]
  simp [String.append_assoc]

theorem encode_at (dseg sn tn : String) :
    originalId dseg sn tn =
      encodeId dseg (NodeType.at, [toSegment sn, toSegment tn]) := by
  simp only [originalId, encodeId, tagOf, joinSegs]
  rw [show ("at" ++ "::" : String) = "at::" from rfl]
  simp [String.append_assoc]

theorem encode_port (dseg sn tn pn : String) :
    portId dseg sn tn pn =
      encodeId dseg (NodeType.port, [toSegment sn, toSegment tn, toSegment pn]) := by
  simp only [portId, encodeId, tagOf, joinSegs]
  rw [show ("port" ++ "::" : String) = "port::" from rfl]
  simp [String.append_assoc]

theorem encode_goal (dseg gn : String) :
    goalId dseg gn = encodeId dseg (NodeType.goal, [toSegment gn]) := by
  simp only [goalId, encodeId, tagOf, joinSegs]
  rw [show ("goal" ++ "::" : String) = "goal::" from rfl]
  simp [String.append_assoc]

theorem flatMap_congr_of {α β : Type} {l : List α} {f g : α → List β}
    (h : ∀ a ∈ l, f a = g a) : l.flatMap f = l.flatMap g := by
  induction l with
  | nil => rfl
  | cons x xs ih =>
    simp only [List.flatMap_cons]
    rw [h x (List.mem_cons_self _ _), ih fun a ha => h a (List.mem_cons_of_mem _ ha)]

theorem systemNodes_ids (dseg dwId : String) (s : TwinSystem) :
    (systemNodes dseg dwId s).map (·.id) =
      (nodePathsOfSystem s).map (encodeId dseg) := by
  simp only [systemNodes, nodePathsOfSystem, portNodesOfTwin, List.map_cons,
    List.map_append, List.map_flatMap, List.map_map, Function.comp_def,
    encode_ts, encode_dt, encode_at, encode_port]

theorem builder_ids_eq (m : DarTwinModel) :
    (darTwinToReactFlow m).nodes.map (·.id) =
      (nodePaths m).map (encodeId (dartwinSegmentOf m)) := by
  have hnodes : (darTwinToReactFlow m).nodes =
      (initAcc m).nodes ++
        m.systems.flatMap
          (systemNodes (dartwinSegmentOf m) (dartwinIdOf (dartwinSegmentOf m))) ++
        m.goals.map (goalNodeOf (dartwinSegmentOf m)) := by
    show (sysAccOf m).nodes ++ _ = _
    rw [sysAccOf, foldl_nodes]
  rw [hnodes]
  simp only [initAcc, nodePaths, List.map_append, List.map_cons, List.map_map,
    List.map_flatMap, List.cons_append, List.nil_append, List.map_nil,
    Function.comp_def, goalNodeOf, encode_dw, encode_goal, systemNodes_ids]

/-- C6 counterexample: two systems with the different names a-space-b and
a-underscore-b receive the same node id (whitespace normalization maps both
name segments to a_b), so the builder's node ids are not pairwise distinct
for every Model even though the entities are differently named. -/
theorem c6_distinct_ids_counterexample :
    ¬ (((darTwinToReactFlow c6xModel).nodes.map (·.id)).Nodup) ∧
    ((c6xModel.systems.map fun s => s.name).Nodup) := by
  constructor
  · decide
  · decide

/-- C6 amended: every node id is the type tag followed by the
whitespace-normalized segments of the containing names joined with the
fixed separator (so ids depend on the Model alone and rebuilding yields
the same ids); the ids are pairwise distinct provided the tagged
normalized segment paths are pairwise distinct and the segments are free
of the separator character (whitespace normalization can merge distinct
raw names such as a-space-b and a-underscore-b, so distinct raw names
alone are not enough). -/
theorem c6_node_ids_amended (m : DarTwinModel)
    (hfree : ∀ k ∈ nodePaths m, ∀ s ∈ k.2, SegFree s)
    (hnd : (nodePaths m).Nodup) :
    (darTwinToReactFlow m).nodes.map (·.id) =
      (nodePaths m).map (encodeId (dartwinSegmentOf m)) ∧
    ((darTwinToReactFlow m).nodes.map (·.id)).Nodup := by
  refine ⟨builder_ids_eq m, ?_⟩
  rw [builder_ids_eq m]
  exact List.Nodup.map_on
    (fun k1 hk1 k2 hk2 h =>
      encodeId_inj (dartwinSegmentOf m) (hfree k1 hk1) (hfree k2 hk2) h) hnd

/-- Witness for the amended C6 on a concrete clean model. -/
theorem c6_node_ids_amended_witness :
    ((darTwinToReactFlow c10wModel).nodes.map (·.id) =
      (nodePaths c10wModel).map (encodeId (dartwinSegmentOf c10wModel))) ∧
    (((darTwinToReactFlow c10wModel).nodes.map (·.id)).Nodup) := by
  exact c6_node_ids_amended c10wModel (by decide) (by decide)

/-! ## C4: extractBlock -/

theorem braceNet_cons (c : Char) (l : List Char) :
    braceNet (c :: l) = braceDelta c + braceNet l := by
  simp [braceNet]

theorem extractLoop_some : ∀ {l : List Char} {i : Nat} {d : Int} {j : Nat},
    extractLoop l i d = some j →
    ∃ n, RelClose l d n ∧ j = i + n ∧ ∀ m, m < n → ¬ RelClose l d m := by
  intro l
  induction l with
  | nil => intro i d j h; simp [extractLoop] at h
  | cons c cs ih =>
    intro i d j h
    simp only [extractLoop] at h
    by_cases hc : c = '\x7b'
    · rw [if_pos hc] at h
      obtain ⟨n, ⟨hlen, hget, hnet⟩, hj, hmin⟩ := ih h
      refine ⟨n + 1, ⟨by simp only [List.length_cons]; omega,
        by simpa using hget, ?_⟩, by omega, ?_⟩
      · rw [List.take_succ_cons, braceNet_cons, hc,
          show braceDelta '\x7b' = 1 from rfl]
        omega
      · intro m hm
        cases m with
        | zero =>
          rintro ⟨_, hg, _⟩
          rw [List.getD_cons_zero, hc] at hg
          exact absurd hg (by decide)
        | succ m2 =>
          rintro ⟨hl2, hg2, hn2⟩
          refine hmin m2 (by omega)
            ⟨by simpa using hl2, by simpa using hg2, ?_⟩
          rw [List.take_succ_cons, braceNet_cons, hc,
            show braceDelta '\x7b' = 1 from rfl] at hn2
          omega
    · by_cases hc2 : c = '\x7d'
      · rw [if_neg hc, if_pos hc2] at h
        have hbd : braceDelta c = -1 := by
          simp [braceDelta, hc, hc2]
        by_cases hd : d - 1 = 0
        · rw [if_pos hd] at h
          injection h with h
          refine ⟨0, ⟨by simp, by simp [hc2], ?_⟩, by omega, ?_⟩
          · rw [List.take_succ_cons, List.take_zero, braceNet_cons, hbd]
            have h0 : braceNet ([] : List Char) = 0 := rfl
            rw [h0]
            omega
          · intro m hm
            exact absurd hm (Nat.not_lt_zero m)
        · rw [if_neg hd] at h
          obtain ⟨n, ⟨hlen, hget, hnet⟩, hj, hmin⟩ := ih h
          refine ⟨n + 1, ⟨by simp only [List.length_cons]; omega,
            by simpa using hget, ?_⟩, by omega, ?_⟩
          · rw [List.take_succ_cons, braceNet_cons, hbd]
            omega
          · intro m hm
            cases m with
            | zero =>
              rintro ⟨_, _, hn0⟩
              rw [List.take_succ_cons, List.take_zero, braceNet_cons, hbd] at hn0
              have h0 : braceNet ([] : List Char) = 0 := rfl
              rw [h0] at hn0
              omega
            | succ m2 =>
              rintro ⟨hl2, hg2, hn2⟩
              refine hmin m2 (by omega)
                ⟨by simpa using hl2, by simpa using hg2, ?_⟩
              rw [List.take_succ_cons, braceNet_cons, hbd] at hn2
              omega
      · rw [if_neg hc, if_neg hc2] at h
        have hbd : braceDelta c = 0 := by
          simp [braceDelta, hc, hc2]
        obtain ⟨n, ⟨hlen, hget, hnet⟩, hj, hmin⟩ := ih h
        refine ⟨n + 1, ⟨by simp only [List.length_cons]; omega,
          by simpa using hget, ?_⟩, by omega, ?_⟩
        · rw [List.take_succ_cons, braceNet_cons, hbd]
          omega
        · intro m hm
          cases m with
          | zero =>
            rintro ⟨_, hg, _⟩
            rw [List.getD_cons_zero] at hg
            exact hc2 hg
          | succ m2 =>
            rintro ⟨hl2, hg2, hn2⟩
            refine hmin m2 (by omega)
              ⟨by simpa using hl2, by simpa using hg2, ?_⟩
            rw [List.take_succ_cons, braceNet_cons, hbd] at hn2
            omega

theorem extractLoop_none : ∀ {l : List Char} {i : Nat} {d : Int},
    extractLoop l i d = none → ∀ n, ¬ RelClose l d n := by
  intro l
  induction l with
  | nil =>
    intro i d _ n hrel
    exact absurd hrel.1 (by simp)
  | cons c cs ih =>
    intro i d h n hrel
    simp only [extractLoop] at h
    by_cases hc : c = '\x7b'
    · rw [if_pos hc] at h
      obtain ⟨hlen, hget, hnet⟩ := hrel
      cases n with
      | zero =>
        rw [List.getD_cons_zero, hc] at hget
        exact absurd hget (by decide)
      | succ n2 =>
        refine ih (i := i + 1) h n2 ⟨by simpa using hlen, by simpa using hget, ?_⟩
        rw [List.take_succ_cons, braceNet_cons, hc,
          show braceDelta '\x7b' = 1 from rfl] at hnet
        omega
    · by_cases hc2 : c = '\x7d'
      · rw [if_neg hc, if_pos hc2] at h
        have hbd : braceDelta c = -1 := by
          simp [braceDelta, hc, hc2]
        by_cases hd : d - 1 = 0
        · rw [if_pos hd] at h
          cases h
        · rw [if_neg hd] at h
          obtain ⟨hlen, hget, hnet⟩ := hrel
          cases n with
          | zero =>
            rw [List.take_succ_cons, List.take_zero, braceNet_cons, hbd,
              show braceNet ([] : List Char) = 0 from rfl] at hnet
            omega
          | succ n2 =>
            refine ih (i := i + 1) h n2
              ⟨by simpa using hlen, by simpa using hget, ?_⟩
            rw [List.take_succ_cons, braceNet_cons, hbd] at hnet
            omega
      · rw [if_neg hc, if_neg hc2] at h
        have hbd : braceDelta c = 0 := by
          simp [braceDelta, hc, hc2]
        obtain ⟨hlen, hget, hnet⟩ := hrel
        cases n with
        | zero =>
          rw [List.getD_cons_zero] at hget
          exact hc2 hget
        | succ n2 =>
          refine ih (i := i + 1) h n2
            ⟨by simpa using hlen, by simpa using hget, ?_⟩
          rw [List.take_succ_cons, braceNet_cons, hbd] at hnet
          omega

/-- C4. extractBlock, called at the index of an opening brace, returns the
substring strictly between that brace and the matching closing brace (the
first position at which the depth counter returns to zero) together with
the index of that closing brace; and when the source runs out before the
depth returns to zero it returns an empty body with the source length as
end index. -/
theorem c4_extract_block (src : List Char) (openIdx : Nat)
    (hlt : openIdx < src.length) (hopen : src.getD openIdx ' ' = '\x7b') :
    (∀ j, IsMatchingClose src openIdx j →
       (∀ k, k < j → ¬ IsMatchingClose src openIdx k) →
       extractBlock src openIdx = ((src.take j).drop (openIdx + 1), j)) ∧
    ((∀ j, ¬ IsMatchingClose src openIdx j) →
       extractBlock src openIdx = ([], src.length)) := by
  constructor
  · intro j hj hjmin
    unfold extractBlock
    cases hL : extractLoop (src.drop openIdx) openIdx 0 with
    | none =>
      exact absurd hj.2 (extractLoop_none hL (j - openIdx))
    | some j2 =>
      obtain ⟨n, hrel, hj2, hmin⟩ := extractLoop_some hL
      have hjc : IsMatchingClose src openIdx (openIdx + n) :=
        ⟨by omega, by simpa using hrel⟩
      have h1 : ¬ (openIdx + n < j) := fun hlt2 => hjmin _ hlt2 hjc
      have h2 : ¬ (j < openIdx + n) := by
        intro hlt2
        have hle := hj.1
        exact hmin (j - openIdx) (by omega) hj.2
      have hje : j2 = j := by omega
      rw [hje]
      rfl
  · intro hnone
    unfold extractBlock
    cases hL : extractLoop (src.drop openIdx) openIdx 0 with
    | none => rfl
    | some j2 =>
      obtain ⟨n, hrel, hj2, _⟩ := extractLoop_some hL
      exact absurd (⟨by omega, by simpa using hrel⟩ :
        IsMatchingClose src openIdx (openIdx + n)) (hnone (openIdx + n))

/-- Witness for C4 on the concrete source left-brace a left-brace b
right-brace c right-brace: the block body is a-left-brace-b-right-brace-c
and the matching close sits at index 6. -/
theorem c4_extract_block_witness :
    extractBlock "\x7ba\x7bb\x7dc\x7d".data 0 =
      (("\x7ba\x7bb\x7dc\x7d".data.take 6).drop 1, 6) := by
  exact (c4_extract_block "\x7ba\x7bb\x7dc\x7d".data 0 (by decide) (by decide)).1
    6 (by decide) (by decide)

/-! ## C5: the parser never throws and degrades to the empty Model -/

theorem scanSuffixes_none {α : Type} {m : List Char → Option α} :
    ∀ (l : List Char) (i : Nat),
    (∀ k, k ≤ l.length → m (l.drop k) = none) → scanSuffixes m l i = none := by
  intro l
  induction l with
  | nil =>
    intro i h
    have h0 := h 0 (by simp)
    simp only [List.drop_nil] at h0
    simp [scanSuffixes, h0]
  | cons c t ih =>
    intro i h
    have h0 := h 0 (by simp)
    rw [List.drop_zero] at h0
    rw [scanSuffixes, h0]
    exact ih (i + 1) fun k hk => by
      have := h (k + 1) (by simpa using Nat.succ_le_succ hk)
      simpa using this

/-- C5. The parser is a total function (so no input text can make it
throw), and on any text in which the root declaration header pattern
(the root keyword, an identifier and an opening brace) matches at no
position, it returns the empty Model: empty systems, goals and
allocations, and no transformation section. -/
theorem c5_no_header_empty_model (text : String)
    (h : ∀ i, i ≤ text.data.length →
      matchHeaderAt "#dartwin".data (text.data.drop i) = none) :
    parseDarTwin text = createEmptyModel := by
  unfold parseDarTwin
  simp only [scanSuffixes_none text.data 0 h]

/-- Witness for C5: a text with no root declaration header parses to the
empty Model. -/
theorem c5_no_header_empty_model_witness :
    parseDarTwin "hello dartwin world" = createEmptyModel := by
  exact c5_no_header_empty_model "hello dartwin world" (by decide)

/-! ## C7: goal documentation normalization -/

theorem dropWhile_head_false {p : Char → Bool} :
    ∀ {l : List Char} {c : Char} {rest : List Char},
    List.dropWhile p l = c :: rest → p c = false := by
  intro l
  induction l with
  | nil => intro c rest h; cases h
  | cons x xs ih =>
    intro c rest h
    rw [List.dropWhile_cons] at h
    by_cases hx : p x
    · rw [if_pos hx] at h
      exact ih h
    · rw [if_neg hx] at h
      injection h with h1 _
      rw [← h1]
      simpa using hx

theorem dropWhile_eq_self_of_head {p : Char → Bool} {c : Char} {t : List Char}
    (hc : p c = false) : List.dropWhile p (c :: t) = c :: t := by
  rw [List.dropWhile_cons, hc]
  simp

theorem dropWhile_isSuffix (p : Char → Bool) :
    ∀ l : List Char, List.dropWhile p l <:+ l := by
  intro l
  induction l with
  | nil => simp
  | cons x xs ih =>
    rw [List.dropWhile_cons]
    by_cases hx : p x
    · rw [if_pos hx]
      exact ih.trans (List.suffix_cons x xs)
    · rw [if_neg hx]

theorem head_false_of_dropWhile_self {p : Char → Bool} {c : Char}
    {t : List Char} (h : List.dropWhile p (c :: t) = c :: t) : p c = false := by
  by_cases hc : p c
  · exfalso
    rw [List.dropWhile_cons, if_pos hc] at h
    have hle := (dropWhile_isSuffix p t).length_le
    have := congrArg List.length h
    simp only [List.length_cons] at this
    omega
  · simpa using hc

theorem dropWhile_idem (p : Char → Bool) (l : List Char) :
    List.dropWhile p (List.dropWhile p l) = List.dropWhile p l := by
  cases h : List.dropWhile p l with
  | nil => rfl
  | cons c rest => exact dropWhile_eq_self_of_head (dropWhile_head_false h)

theorem trimChars_stable1 (l : List Char) :
    List.dropWhile isJsWs (trimChars l) = trimChars l := by
  cases h : trimChars l with
  | nil => rfl
  | cons c rest =>
    refine dropWhile_eq_self_of_head ?_
    unfold trimChars at h
    have hw : ((l.dropWhile isJsWs).reverse.dropWhile isJsWs) <:+
        (l.dropWhile isJsWs).reverse := dropWhile_isSuffix _ _
    have hpre : ((l.dropWhile isJsWs).reverse.dropWhile isJsWs).reverse <+:
        l.dropWhile isJsWs := by
      have := List.reverse_prefix.mpr hw
      simpa using this
    obtain ⟨t, ht⟩ := hpre
    rw [h] at ht
    rw [List.cons_append] at ht
    exact dropWhile_head_false ht.symm

theorem trimChars_stable2 (l : List Char) :
    List.dropWhile isJsWs (trimChars l).reverse = (trimChars l).reverse := by
  unfold trimChars
  rw [List.reverse_reverse]
  exact dropWhile_idem _ _

theorem trimChars_eq_self {l : List Char}
    (h1 : List.dropWhile isJsWs l = l)
    (h2 : List.dropWhile isJsWs l.reverse = l.reverse) : trimChars l = l := by
  unfold trimChars
  rw [h1, h2, List.reverse_reverse]

theorem dropWhile_append_stable {A X : List Char}
    (hA : List.dropWhile isJsWs A = A) (h0 : A ≠ []) :
    List.dropWhile isJsWs (A ++ X) = A ++ X := by
  cases A with
  | nil => exact absurd rfl h0
  | cons c t =>
    rw [List.cons_append]
    exact dropWhile_eq_self_of_head (head_false_of_dropWhile_self hA)

theorem joinWith_ne_empty : ∀ {L : List String}, L ≠ [] →
    (∀ x ∈ L, x ≠ "") → joinWith " " L ≠ "" := by
  intro L
  induction L with
  | nil => intro h; exact absurd rfl h
  | cons x xs ih =>
    intro _ hall
    cases xs with
    | nil => exact hall x (List.mem_cons_self _ _)
    | cons y ys =>
      rw [joinWith]
      intro heq
      have hd := congrArg String.data heq
      simp only [String.data_append] at hd
      have hx : x.data ≠ [] := by
        intro hxe
        exact hall x (List.mem_cons_self _ _) (String.ext hxe)
      cases hxd : x.data with
      | nil => exact hx hxd
      | cons c cs =>
        rw [hxd] at hd
        cases hd

theorem joinWith_stable : ∀ {L : List String}, L ≠ [] →
    (∀ x ∈ L, x ≠ "" ∧ List.dropWhile isJsWs x.data = x.data ∧
      List.dropWhile isJsWs x.data.reverse = x.data.reverse) →
    List.dropWhile isJsWs (joinWith " " L).data = (joinWith " " L).data ∧
    List.dropWhile isJsWs (joinWith " " L).data.reverse =
      (joinWith " " L).data.reverse := by
  intro L
  induction L with
  | nil => intro h; exact absurd rfl h
  | cons x xs ih =>
    intro _ hall
    obtain ⟨hx0, hx1, hx2⟩ := hall x (List.mem_cons_self _ _)
    cases xs with
    | nil => exact ⟨hx1, hx2⟩
    | cons y ys =>
      rw [joinWith]
      have hJ := ih (by simp) fun z hz => hall z (List.mem_cons_of_mem _ hz)
      have hJ0 : joinWith " " (y :: ys) ≠ "" :=
        joinWith_ne_empty (by simp) fun z hz => (hall z (List.mem_cons_of_mem _ hz)).1
      have hJd : (joinWith " " (y :: ys)).data ≠ [] := by
        intro hd
        exact hJ0 (String.ext hd)
      have hxd : x.data ≠ [] := by
        intro hd
        exact hx0 (String.ext hd)
      constructor
      · rw [String.data_append, String.data_append, List.append_assoc]
        exact dropWhile_append_stable hx1 hxd
      · rw [String.data_append, String.data_append, List.reverse_append,
          List.reverse_append]
        exact dropWhile_append_stable hJ.2 (by simpa using hJd)

theorem filter_pred_eq (ls : List String) :
    (ls.map jsTrim).filter (fun line => !(isWsOnlyLine line)) =
    (ls.map jsTrim).filter (fun line => line != "") := by
  refine List.filter_congr ?_
  intro y hy
  obtain ⟨x, _, rfl⟩ := List.mem_map.mp hy
  by_cases h : jsTrim x = ""
  · rw [h]
    decide
  · have hne : (jsTrim x).data ≠ [] := by
      intro hd
      exact h (String.ext hd)
    cases hdd : (jsTrim x).data with
    | nil => exact absurd hdd hne
    | cons c rest =>
      have hstable := trimChars_stable1 x.data
      have hdd2 : trimChars x.data = c :: rest := hdd
      rw [hdd2] at hstable
      have hc : isJsWs c = false := head_false_of_dropWhile_self hstable
      have h1 : isWsOnlyLine (jsTrim x) = false := by
        unfold isWsOnlyLine
        rw [hdd]
        simp [hc]
      have h2 : (jsTrim x != "") = true := by
        simpa [bne_iff_ne] using h
      rw [h1, h2]
      rfl

/-- C7 counterexample: in the parsed document the goal doc for the comment
a-space-space-b is stored with the internal double space preserved, so the
stored value is not whitespace-normalized to single spaces. -/
theorem c7_doc_counterexample :
    (parseDarTwin c7xText).goals = [{ name := "g", doc := some "a  b" }] ∧
    ("a  b" : String) ≠ "a b" := by
  constructor
  · decide
  · decide

/-- C7 amended: the stored doc value is the comment text with each line's
leading and trailing whitespace stripped, whitespace-only lines removed,
and the surviving lines joined with single spaces (internal whitespace
runs inside a line are preserved, not collapsed); an empty result is not
stored. -/
theorem c7_goal_doc_amended :
    (∀ raw, normalizeWhitespace raw = specLineJoin raw) ∧
    (∀ (fuel : Nat) (body : List Char) (start : Nat) (g : Goal) (d : String),
       g ∈ parseGoalsLoop fuel body start → g.doc = some d →
       d ≠ "" ∧ ∃ raw, d = normalizeWhitespace raw) := by
  constructor
  · intro raw
    unfold normalizeWhitespace specLineJoin
    rw [filter_pred_eq]
    cases hL : ((splitLines raw).map jsTrim).filter (fun line => line != "") with
    | nil => rfl
    | cons z zs =>
      have hmem : ∀ x ∈ z :: zs, x ≠ "" ∧
          List.dropWhile isJsWs x.data = x.data ∧
          List.dropWhile isJsWs x.data.reverse = x.data.reverse := by
        intro x hx
        rw [← hL] at hx
        obtain ⟨hx1, hx2⟩ := List.mem_filter.mp hx
        obtain ⟨orig, _, horig⟩ := List.mem_map.mp hx1
        constructor
        · simpa [bne_iff_ne] using hx2
        constructor
        · rw [← horig]
          exact trimChars_stable1 orig.data
        · rw [← horig]
          exact trimChars_stable2 orig.data
      obtain ⟨hs1, hs2⟩ := joinWith_stable (by simp) hmem
      unfold jsTrim
      rw [trimChars_eq_self hs1 hs2]
  · intro fuel
    induction fuel with
    | zero =>
      intro body start g d hg
      simp [parseGoalsLoop] at hg
    | succ fuel ih =>
      intro body start g d hg hd
      simp only [parseGoalsLoop] at hg
      cases hscan : scanFrom matchGoalAt body start with
      | none =>
        rw [hscan] at hg
        cases hg
      | some res =>
        obtain ⟨idx, ⟨nm, hasBrace⟩, len⟩ := res
        rw [hscan] at hg
        cases hasBrace with
        | false =>
          simp only [Bool.false_eq_true, if_false] at hg
          rcases List.mem_cons.mp hg with hgh | hgt
          · rw [hgh] at hd
            cases hd
          · exact ih body (idx + len) g d hgt hd
        | true =>
          simp only [if_true] at hg
          cases hEB : extractBlock body (idx + len - 1) with
          | mk goalBody endIdx =>
            rw [hEB] at hg
            cases hdoc : scanSuffixes matchDocAt goalBody 0 with
            | none =>
              rw [hdoc] at hg
              simp only at hg
              rcases List.mem_cons.mp hg with hgh | hgt
              · rw [hgh] at hd
                cases hd
              · exact ih body (endIdx + 1) g d hgt hd
            | some pr =>
              obtain ⟨_, raw⟩ := pr
              rw [hdoc] at hg
              simp only at hg
              by_cases hz : normalizeWhitespace (String.mk raw) = ""
              · rw [if_pos hz] at hg
                rcases List.mem_cons.mp hg with hgh | hgt
                · rw [hgh] at hd
                  cases hd
                · exact ih body (endIdx + 1) g d hgt hd
              · rw [if_neg hz] at hg
                rcases List.mem_cons.mp hg with hgh | hgt
                · rw [hgh] at hd
                  injection hd with hd
                  subst hd
                  exact ⟨hz, String.mk raw, rfl⟩
                · exact ih body (endIdx + 1) g d hgt hd

/-- Witness for the amended C7: normalization agrees with the per-line
description on a concrete comment, and the concrete parsed goal doc is
non-empty and of normalized form. -/
theorem c7_goal_doc_amended_witness :
    (normalizeWhitespace " a  b " = specLineJoin " a  b ") ∧
    (("a  b" : String) ≠ "" ∧ ∃ raw, ("a  b" : String) = normalizeWhitespace raw) := by
  refine ⟨c7_goal_doc_amended.1 " a  b ", ?_⟩
  exact c7_goal_doc_amended.2
    ("#goal g \x7b doc /* a  b */ \x7d".data.length + 1)
    "#goal g \x7b doc /* a  b */ \x7d".data 0
    { name := "g", doc := some "a  b" } "a  b" (by decide) rfl

/-! ## C9: digital-twin port classification and placement -/

theorem alistGet_append_right {α : Type} {l2 : List (String × α)} {k : String}
    {v : α} (l1 : List (String × α)) (h : alistGet l2 k = some v) :
    alistGet (l1 ++ l2) k = some v := by
  induction l1 with
  | nil => exact h
  | cons p rest ih =>
    obtain ⟨k2, v2⟩ := p
    rw [List.cons_append, alistGet, ih]

theorem alistGet_append_left {α : Type} {l2 : List (String × α)} {k : String}
    (l1 : List (String × α)) (h : alistGet l2 k = none) :
    alistGet (l1 ++ l2) k = alistGet l1 k := by
  induction l1 with
  | nil => rw [List.nil_append, h]; rfl
  | cons p rest ih =>
    obtain ⟨k2, v2⟩ := p
    rw [List.cons_append, alistGet, ih, alistGet]

theorem idxWrites_get_none :
    ∀ (G : List DarTwinNode) (f : Nat → Int × Int) (i : Nat) (k : String),
    k ∉ G.map (·.id) → alistGet (idxWrites f G i) k = none := by
  intro G
  induction G with
  | nil => intro f i k _; rfl
  | cons q G ih =>
    intro f i k hk
    have hk1 : ¬ (q.id = k) := fun he => hk (by simp [← he])
    have hk2 : k ∉ G.map (·.id) := fun hm => hk (by simp [hm])
    rw [idxWrites, alistGet, ih f (i + 1) k hk2]
    simp [hk1]

theorem idxWrites_get_mem :
    ∀ (G : List DarTwinNode) (f : Nat → Int × Int) (i : Nat) (p : DarTwinNode),
    p ∈ G → (G.map (·.id)).Nodup →
    ∃ n, alistGet (idxWrites f G i) p.id = some (f n) := by
  intro G
  induction G with
  | nil => intro f i p hp; cases hp
  | cons q G ih =>
    intro f i p hp hnd
    simp only [List.map_cons, List.nodup_cons] at hnd
    rcases List.mem_cons.mp hp with hpq | hpG
    · subst hpq
      have hnone : alistGet (idxWrites f G (i + 1)) p.id = none :=
        idxWrites_get_none G f (i + 1) p.id hnd.1
      refine ⟨i, ?_⟩
      rw [idxWrites, alistGet, hnone]
      simp
    · obtain ⟨n, hn⟩ := ih f (i + 1) p hpG hnd.2
      refine ⟨n, ?_⟩
      rw [idxWrites, alistGet, hn]

theorem id_not_in_filter {dtPorts : List DarTwinNode}
    (hnd : (dtPorts.map (·.id)).Nodup) {p : DarTwinNode} (hp : p ∈ dtPorts)
    {pred : DarTwinNode → Bool} (hpred : pred p = false) :
    p.id ∉ (dtPorts.filter pred).map (·.id) := by
  intro hmem
  obtain ⟨q, hq, hqid⟩ := List.mem_map.mp hmem
  obtain ⟨hq1, hq2⟩ := List.mem_filter.mp hq
  have hqp : q = p := List.inj_on_of_nodup_map hnd hq1 hp hqid
  rw [hqp] at hq2
  rw [hq2] at hpred
  cases hpred

theorem sensorWrites_get_none (x y : Int) (G : List DarTwinNode) (k : String)
    (hk : k ∉ G.map (·.id)) : alistGet (sensorWrites x y G) k = none :=
  idxWrites_get_none G _ 0 k hk

theorem actuatorWrites_get_none (x y : Int) (G : List DarTwinNode) (k : String)
    (hk : k ∉ G.map (·.id)) : alistGet (actuatorWrites x y G) k = none :=
  idxWrites_get_none G _ 0 k hk

theorem remainingWrites_get_none (x y : Int) (G : List DarTwinNode) (k : String)
    (hk : k ∉ G.map (·.id)) : alistGet (remainingWrites x y G) k = none := by
  unfold remainingWrites
  by_cases h : 0 < G.length
  · rw [if_pos h]
    exact idxWrites_get_none G _ 0 k hk
  · rw [if_neg h]
    rfl

theorem sensorWrites_get_mem (x y : Int) (G : List DarTwinNode) (p : DarTwinNode)
    (hp : p ∈ G) (hnd : (G.map (·.id)).Nodup) :
    ∃ n : Nat, alistGet (sensorWrites x y G) p.id =
      some (x + DT_WIDTH + SENSOR_GAP + (n : Int) * (PORT_WIDTH + SENSOR_STACK_GAP),
            y + DT_HEIGHT / 2 - PORT_HEIGHT / 2) :=
  idxWrites_get_mem G _ 0 p hp hnd

theorem actuatorWrites_get_mem (x y : Int) (G : List DarTwinNode) (p : DarTwinNode)
    (hp : p ∈ G) (hnd : (G.map (·.id)).Nodup) :
    ∃ n : Nat, alistGet (actuatorWrites x y G) p.id =
      some (actuatorStartXOf x G.length +
              (n : Int) * (PORT_WIDTH + ACTUATOR_HORIZONTAL_GAP),
            y + DT_HEIGHT + ACTUATOR_VERTICAL_GAP) :=
  idxWrites_get_mem G _ 0 p hp hnd

theorem remainingWrites_get_mem (x y : Int) (G : List DarTwinNode) (p : DarTwinNode)
    (hp : p ∈ G) (hnd : (G.map (·.id)).Nodup) :
    ∃ n : Nat, alistGet (remainingWrites x y G) p.id =
      some (x - SIDE_PORT_GAP - PORT_WIDTH,
            y + (DT_HEIGHT - ((G.length : Int) * PORT_HEIGHT +
                  max 0 ((G.length : Int) - 1) * SIDE_PORT_STACK_GAP)) / 2 +
              (n : Int) * (PORT_HEIGHT + SIDE_PORT_STACK_GAP)) := by
  have hlen : 0 < G.length := List.length_pos.mpr (List.ne_nil_of_mem hp)
  unfold remainingWrites
  rw [if_pos hlen]
  exact idxWrites_get_mem G _ 0 p hp hnd

/-- The position map written by one layoutDigitalTwin call, characterized
entry by entry: the twin box gets its grid position, each port gets exactly
one position, and that position lies below, right of, or left of the box
according to the actuator/sensor/other classification of the port label. -/
theorem layout_positions_spec (box : Int × Int) (dtId : String)
    (dtPorts : List DarTwinNode) (positions : PosMap) (p : DarTwinNode)
    (hp : p ∈ dtPorts) (hnd : (dtPorts.map (·.id)).Nodup)
    (hdt : dtId ∉ dtPorts.map (·.id)) :
    ∃ pos,
      alistGet (positions ++ [(dtId, box)] ++
        sensorWrites box.1 box.2 (dtPorts.filter isSensorPort) ++
        actuatorWrites box.1 box.2 (dtPorts.filter isActuatorPort) ++
        remainingWrites box.1 box.2 (dtPorts.filter fun q =>
          !((dtPorts.filter isSensorPort).contains q) &&
          !((dtPorts.filter isActuatorPort).contains q))) dtId = some box ∧
      alistGet (positions ++ [(dtId, box)] ++
        sensorWrites box.1 box.2 (dtPorts.filter isSensorPort) ++
        actuatorWrites box.1 box.2 (dtPorts.filter isActuatorPort) ++
        remainingWrites box.1 box.2 (dtPorts.filter fun q =>
          !((dtPorts.filter isSensorPort).contains q) &&
          !((dtPorts.filter isActuatorPort).contains q))) p.id = some pos ∧
      (if isActuatorPort p then inBottomZone box pos
       else if isSensorPort p then inRightZone box pos
       else inLeftZone box pos) := by
  have hcontains : ∀ (l : List DarTwinNode) (q : DarTwinNode),
      l.contains q = true ↔ q ∈ l := fun l q => List.elem_iff
  have hsubmap : ∀ (pred : DarTwinNode → Bool),
      dtId ∉ (dtPorts.filter pred).map (·.id) := by
    intro pred hmem
    obtain ⟨q, hq, hqid⟩ := List.mem_map.mp hmem
    exact hdt (List.mem_map.mpr ⟨q, (List.mem_filter.mp hq).1, hqid⟩)
  have hndS : ((dtPorts.filter isSensorPort).map (·.id)).Nodup :=
    hnd.sublist ((List.filter_sublist dtPorts).map (·.id))
  have hndA : ((dtPorts.filter isActuatorPort).map (·.id)).Nodup :=
    hnd.sublist ((List.filter_sublist dtPorts).map (·.id))
  have hndR : ((dtPorts.filter fun q =>
      !((dtPorts.filter isSensorPort).contains q) &&
      !((dtPorts.filter isActuatorPort).contains q)).map (·.id)).Nodup :=
    hnd.sublist ((List.filter_sublist dtPorts).map (·.id))
  have hdtEq : alistGet (positions ++ [(dtId, box)] ++
      sensorWrites box.1 box.2 (dtPorts.filter isSensorPort) ++
      actuatorWrites box.1 box.2 (dtPorts.filter isActuatorPort) ++
      remainingWrites box.1 box.2 (dtPorts.filter fun q =>
        !((dtPorts.filter isSensorPort).contains q) &&
        !((dtPorts.filter isActuatorPort).contains q))) dtId = some box := by
    rw [alistGet_append_left _ (remainingWrites_get_none _ _ _ _ (hsubmap _)),
        alistGet_append_left _ (actuatorWrites_get_none _ _ _ _ (hsubmap _)),
        alistGet_append_left _ (sensorWrites_get_none _ _ _ _ (hsubmap _))]
    exact alistGet_append_right positions (by simp [alistGet])
  cases hAct : isActuatorPort p with
  | true =>
    have hpA : p ∈ dtPorts.filter isActuatorPort := List.mem_filter.mpr ⟨hp, hAct⟩
    have hcA : (dtPorts.filter isActuatorPort).contains p = true :=
      (hcontains _ _).mpr hpA
    have hpredR : (fun q =>
        !((dtPorts.filter isSensorPort).contains q) &&
        !((dtPorts.filter isActuatorPort).contains q)) p = false := by
      show (!((dtPorts.filter isSensorPort).contains p) &&
            !((dtPorts.filter isActuatorPort).contains p)) = false
      rw [hcA, Bool.not_true, Bool.and_false]
    have hrem : alistGet (remainingWrites box.1 box.2 (dtPorts.filter fun q =>
        !((dtPorts.filter isSensorPort).contains q) &&
        !((dtPorts.filter isActuatorPort).contains q))) p.id = none :=
      remainingWrites_get_none _ _ _ _ (id_not_in_filter hnd hp hpredR)
    obtain ⟨n, hn⟩ :=
      actuatorWrites_get_mem box.1 box.2 (dtPorts.filter isActuatorPort) p hpA hndA
    refine ⟨(actuatorStartXOf box.1 (dtPorts.filter isActuatorPort).length +
               (n : Int) * (PORT_WIDTH + ACTUATOR_HORIZONTAL_GAP),
             box.2 + DT_HEIGHT + ACTUATOR_VERTICAL_GAP), hdtEq, ?_, ?_⟩
    · rw [alistGet_append_left _ hrem]
      exact alistGet_append_right _ hn
    · rw [if_pos rfl]
      simp only [inBottomZone, DT_HEIGHT, ACTUATOR_VERTICAL_GAP]
      omega
  | false =>
    cases hSen : isSensorPort p with
    | true =>
      have hpS : p ∈ dtPorts.filter isSensorPort := List.mem_filter.mpr ⟨hp, hSen⟩
      have hcS : (dtPorts.filter isSensorPort).contains p = true :=
        (hcontains _ _).mpr hpS
      have hpredR : (fun q =>
          !((dtPorts.filter isSensorPort).contains q) &&
          !((dtPorts.filter isActuatorPort).contains q)) p = false := by
        show (!((dtPorts.filter isSensorPort).contains p) &&
              !((dtPorts.filter isActuatorPort).contains p)) = false
        rw [hcS, Bool.not_true, Bool.false_and]
      have hrem : alistGet (remainingWrites box.1 box.2 (dtPorts.filter fun q =>
          !((dtPorts.filter isSensorPort).contains q) &&
          !((dtPorts.filter isActuatorPort).contains q))) p.id = none :=
        remainingWrites_get_none _ _ _ _ (id_not_in_filter hnd hp hpredR)
      have hact : alistGet (actuatorWrites box.1 box.2
          (dtPorts.filter isActuatorPort)) p.id = none :=
        actuatorWrites_get_none _ _ _ _ (id_not_in_filter hnd hp hAct)
      obtain ⟨n, hn⟩ :=
        sensorWrites_get_mem box.1 box.2 (dtPorts.filter isSensorPort) p hpS hndS
      refine ⟨(box.1 + DT_WIDTH + SENSOR_GAP +
                 (n : Int) * (PORT_WIDTH + SENSOR_STACK_GAP),
               box.2 + DT_HEIGHT / 2 - PORT_HEIGHT / 2), hdtEq, ?_, ?_⟩
      · rw [alistGet_append_left _ hrem, alistGet_append_left _ hact]
        exact alistGet_append_right _ hn
      · rw [if_neg (by decide), if_pos rfl]
        simp only [inRightZone, DT_WIDTH, SENSOR_GAP, PORT_WIDTH, SENSOR_STACK_GAP]
        omega
    | false =>
      have hpS : p ∉ dtPorts.filter isSensorPort := fun h =>
        absurd (List.mem_filter.mp h).2 (by simp [hSen])
      have hpA : p ∉ dtPorts.filter isActuatorPort := fun h =>
        absurd (List.mem_filter.mp h).2 (by simp [hAct])
      have hcS : (dtPorts.filter isSensorPort).contains p = false := by
        cases hc : (dtPorts.filter isSensorPort).contains p
        · rfl
        · exact absurd ((hcontains _ _).mp hc) hpS
      have hcA : (dtPorts.filter isActuatorPort).contains p = false := by
        cases hc : (dtPorts.filter isActuatorPort).contains p
        · rfl
        · exact absurd ((hcontains _ _).mp hc) hpA
      have hpR : p ∈ dtPorts.filter fun q =>
          !((dtPorts.filter isSensorPort).contains q) &&
          !((dtPorts.filter isActuatorPort).contains q) :=
        List.mem_filter.mpr ⟨hp, by
          show (!((dtPorts.filter isSensorPort).contains p) &&
                !((dtPorts.filter isActuatorPort).contains p)) = true
          rw [hcS, hcA]
          rfl⟩
      obtain ⟨n, hn⟩ := remainingWrites_get_mem box.1 box.2 (dtPorts.filter fun q =>
          !((dtPorts.filter isSensorPort).contains q) &&
          !((dtPorts.filter isActuatorPort).contains q)) p hpR hndR
      refine ⟨(box.1 - SIDE_PORT_GAP - PORT_WIDTH,
               box.2 + (DT_HEIGHT -
                 (((dtPorts.filter fun q =>
                     !((dtPorts.filter isSensorPort).contains q) &&
                     !((dtPorts.filter isActuatorPort).contains q)).length : Int) *
                    PORT_HEIGHT +
                  max 0 (((dtPorts.filter fun q =>
                     !((dtPorts.filter isSensorPort).contains q) &&
                     !((dtPorts.filter isActuatorPort).contains q)).length : Int) - 1) *
                    SIDE_PORT_STACK_GAP)) / 2 +
                 (n : Int) * (PORT_HEIGHT + SIDE_PORT_STACK_GAP)), hdtEq, ?_, ?_⟩
      · exact alistGet_append_right _ hn
      · rw [if_neg (by decide), if_neg (by decide)]
        simp only [inLeftZone, SIDE_PORT_GAP, PORT_WIDTH]
        omega

/-- C9 counterexample: for the spec's own example ports (sensor_input,
actuator_output_x, actuator_output_y) the layout places the sensor port in
the zone to the right of the twin box and the actuator ports in the zone
below it — adjacent zones, not opposite ones — so the claim that actuator
ports sit on the side opposite the sensor ports fails. -/
theorem c9_port_sides_counterexample :
    alistGet c9Result "dt1" = some (220, 330) ∧
    alistGet c9Result "p1" = some (610, 382) ∧
    alistGet c9Result "p2" = some (236, 560) ∧
    alistGet c9Result "p3" = some (404, 560) ∧
    ¬ oppositeSidesPlacement (220, 330) [(610, 382)] [(236, 560), (404, 560)] := by
  refine ⟨by decide, by decide, by decide, by decide, ?_⟩
  decide

/-- C9 amended: each port of a digital twin receives exactly one final
position, chosen by a total classification of its label — actuator-like
ports (matching the output/actuator pattern, which takes precedence when a
label matches both patterns) are placed in the zone below the twin,
sensor-like ports (matching the input/sensor pattern and not the actuator
pattern) in the zone to its right, and unclassified ports in the zone to
its left; below and right are adjacent sides, not opposite ones. -/
theorem c9_port_sides_amended (twinPos : Int × Int) (dt : DarTwinNode)
    (dtIndex dtCount : Nat) (allPorts : List DarTwinNode) (positions : PosMap)
    (p : DarTwinNode) (hp : p ∈ dtPortsOf allPorts dt)
    (hnd : ((dtPortsOf allPorts dt).map (·.id)).Nodup)
    (hdt : dt.id ∉ (dtPortsOf allPorts dt).map (·.id)) :
    ∃ pos,
      alistGet (layoutDigitalTwin twinPos dt dtIndex dtCount allPorts positions).1
        dt.id = some (dtBoxPos twinPos dtIndex dtCount) ∧
      alistGet (layoutDigitalTwin twinPos dt dtIndex dtCount allPorts positions).1
        p.id = some pos ∧
      (if isActuatorPort p then
        inBottomZone (dtBoxPos twinPos dtIndex dtCount) pos
       else if isSensorPort p then
        inRightZone (dtBoxPos twinPos dtIndex dtCount) pos
       else inLeftZone (dtBoxPos twinPos dtIndex dtCount) pos) :=
  layout_positions_spec (dtBoxPos twinPos dtIndex dtCount) dt.id
    (dtPortsOf allPorts dt) positions p hp hnd hdt

/-- Witness for the amended C9: the example twin's sensor port is placed in
the zone to the right of the twin box. -/
theorem c9_port_sides_amended_witness :
    (c9SensorPort ∈ dtPortsOf c9Ports c9Dt) ∧
    ∃ pos,
      alistGet (layoutDigitalTwin (120, 240) c9Dt 0 1 c9Ports []).1 c9Dt.id =
        some (dtBoxPos (120, 240) 0 1) ∧
      alistGet (layoutDigitalTwin (120, 240) c9Dt 0 1 c9Ports []).1
        c9SensorPort.id = some pos ∧
      (if isActuatorPort c9SensorPort then
        inBottomZone (dtBoxPos (120, 240) 0 1) pos
       else if isSensorPort c9SensorPort then
        inRightZone (dtBoxPos (120, 240) 0 1) pos
       else inLeftZone (dtBoxPos (120, 240) 0 1) pos) :=
  ⟨by decide,
   c9_port_sides_amended (120, 240) c9Dt 0 1 c9Ports [] c9SensorPort
     (by decide) (by decide) (by decide)⟩

/-! ## C8: the structural validator -/

theorem isObjectG_iff (v : JSValue) : isObjectG v = true ↔ WFObjectLike v := by
  cases v <;> simp [isObjectG, WFObjectLike]

theorem isStrG_iff (v : JSValue) : isStrG v = true ↔ WFString v := by
  cases v <;> simp [isStrG, WFString]

theorem isUndefG_iff (v : JSValue) : isUndefG v = true ↔ v = .jsUndefined := by
  cases v <;> simp [isUndefG]

theorem isDarTwinLit_iff (v : JSValue) :
    isDarTwinLit v = true ↔ v = .str "DarTwin" := by
  cases v <;> simp [isDarTwinLit]

theorem isStringArrayG_iff (v : JSValue) :
    isStringArrayG v = true ↔ WFStringArray v := by
  cases v <;> simp [isStringArrayG, WFStringArray, List.all_eq_true, isStrG_iff]

theorem isDigitalTwinG_iff (v : JSValue) :
    isDigitalTwinG v = true ↔ WFDigitalTwin v := by
  simp [isDigitalTwinG, WFDigitalTwin, Bool.and_eq_true, isObjectG_iff,
        isStrG_iff, isStringArrayG_iff, and_assoc]

theorem isOriginalTwinG_iff (v : JSValue) :
    isOriginalTwinG v = true ↔ WFOriginalTwin v := by
  simp [isOriginalTwinG, WFOriginalTwin, Bool.and_eq_true, isObjectG_iff,
        isStrG_iff, isStringArrayG_iff, and_assoc]

theorem isConnectionG_iff (v : JSValue) :
    isConnectionG v = true ↔ WFConnection v := by
  simp [isConnectionG, WFConnection, Bool.and_eq_true, Bool.or_eq_true,
        isObjectG_iff, isStrG_iff, isUndefG_iff, WFOptional, and_assoc]

theorem isGoalG_iff (v : JSValue) : isGoalG v = true ↔ WFGoal v := by
  simp [isGoalG, WFGoal, Bool.and_eq_true, Bool.or_eq_true,
        isObjectG_iff, isStrG_iff, isUndefG_iff, WFOptional, and_assoc]

theorem isAllocationG_iff (v : JSValue) :
    isAllocationG v = true ↔ WFAllocation v := by
  simp [isAllocationG, WFAllocation, Bool.and_eq_true, isObjectG_iff,
        isStrG_iff, and_assoc]

theorem isArrayAll_dt_iff (v : JSValue) :
    isArrayAllG isDigitalTwinG v = true ↔ WFArrayOf WFDigitalTwin v := by
  cases v <;> simp [isArrayAllG, WFArrayOf, List.all_eq_true, isDigitalTwinG_iff]

theorem isArrayAll_ot_iff (v : JSValue) :
    isArrayAllG isOriginalTwinG v = true ↔ WFArrayOf WFOriginalTwin v := by
  cases v <;> simp [isArrayAllG, WFArrayOf, List.all_eq_true, isOriginalTwinG_iff]

theorem isArrayAll_conn_iff (v : JSValue) :
    isArrayAllG isConnectionG v = true ↔ WFArrayOf WFConnection v := by
  cases v <;> simp [isArrayAllG, WFArrayOf, List.all_eq_true, isConnectionG_iff]

theorem isArrayAll_goal_iff (v : JSValue) :
    isArrayAllG isGoalG v = true ↔ WFArrayOf WFGoal v := by
  cases v <;> simp [isArrayAllG, WFArrayOf, List.all_eq_true, isGoalG_iff]

theorem isArrayAll_alloc_iff (v : JSValue) :
    isArrayAllG isAllocationG v = true ↔ WFArrayOf WFAllocation v := by
  cases v <;> simp [isArrayAllG, WFArrayOf, List.all_eq_true, isAllocationG_iff]

theorem isTwinSystemG_iff (v : JSValue) :
    isTwinSystemG v = true ↔ WFTwinSystem v := by
  simp [isTwinSystemG, WFTwinSystem, Bool.and_eq_true, isObjectG_iff,
        isStrG_iff, isArrayAll_dt_iff, isArrayAll_ot_iff, isArrayAll_conn_iff,
        and_assoc]

theorem isArrayAll_sys_iff (v : JSValue) :
    isArrayAllG isTwinSystemG v = true ↔ WFArrayOf WFTwinSystem v := by
  cases v <;> simp [isArrayAllG, WFArrayOf, List.all_eq_true, isTwinSystemG_iff]

theorem isPartialSliceG_iff (v : JSValue) :
    isPartialSliceG v = true ↔ WFPartialSlice v := by
  simp [isPartialSliceG, WFPartialSlice, Bool.and_eq_true, Bool.or_eq_true,
        isObjectG_iff, isUndefG_iff, isArrayAll_sys_iff, isArrayAll_goal_iff,
        isArrayAll_alloc_iff, WFOptional, and_assoc]

theorem isDarTransG_iff (v : JSValue) :
    isDarTransG v = true ↔ WFDarTrans v := by
  simp [isDarTransG, WFDarTrans, Bool.and_eq_true, Bool.or_eq_true,
        isObjectG_iff, isUndefG_iff, isPartialSliceG_iff, WFOptional, and_assoc]

/-- C8 counterexample: the validator's only output is a boolean. Two values
that are ill-formed at different fields (one has the discriminant but no
name, the other a name but a wrong discriminant) receive the very same
rejection value, so the result does not report which field failed. -/
theorem c8_validator_counterexample :
    isDarTwinLit (getField c8xMissingName "type") = true ∧
    isStrG (getField c8xMissingName "name") = false ∧
    isDarTwinLit (getField c8xBadType "type") = false ∧
    isStrG (getField c8xBadType "name") = true ∧
    isDarTwinModelG c8xMissingName = isDarTwinModelG c8xBadType := by
  decide

/-- C8 amended: the validator is a boolean recognizer of the well-formed
Model shape — it returns true exactly on values matching the shape (literal
discriminant, string name, lists of well-formed systems, goals and
allocations, optional well-formed transformation slices, all on
typeof-object values) and false on every other value, without any
exceptional outcome; being a Bool, the answer is yes/no only. -/
theorem c8_validator_amended (v : JSValue) :
    isDarTwinModelG v = true ↔ WFModel v := by
  simp [isDarTwinModelG, WFModel, Bool.and_eq_true, Bool.or_eq_true,
        isObjectG_iff, isDarTwinLit_iff, isStrG_iff, isArrayAll_sys_iff,
        isArrayAll_goal_iff, isArrayAll_alloc_iff, isUndefG_iff,
        isDarTransG_iff, WFOptional, and_assoc]

set_option maxRecDepth 1000000 in
/-- C3: for the canonical sample document the parser yields a model named
after the document with exactly one system holding one digital twin of 4
ports, one original twin of 4 ports and 4 connections, two goals each
carrying a non-empty normalized doc, and two allocations; the graph built
from that model has exactly 14 nodes and 6 edges, of which 2 carry the
allocation label and the other 4 are connection edges. -/
theorem c3_canonical_sample :
    sampleModel.name = "StrawberryCultivationTrans" ∧
    sampleModel.systems.length = 1 ∧
    (sampleModel.systems.map fun s =>
      s.digital_twins.map fun dt => dt.ports.length) = [[4]] ∧
    (sampleModel.systems.map fun s =>
      s.original_twins.map fun ot => ot.ports.length) = [[4]] ∧
    (sampleModel.systems.map fun s => s.connections.length) = [4] ∧
    sampleModel.goals.length = 2 ∧
    (sampleModel.goals.map fun gl => gl.doc) =
      [some "yield y higher y than before",
       some "water consumption w lower w than before"] ∧
    sampleModel.allocations.length = 2 ∧
    sampleGraph.nodes.length = 14 ∧
    sampleGraph.edges.length = 6 ∧
    (sampleGraph.edges.filter fun e => e.label = some "allocate").length = 2 ∧
    (sampleGraph.edges.filter fun e => e.label ≠ some "allocate").length = 4 := by
  decide

end DW
